import Mathlib

set_option maxRecDepth 100000

/-!
Verification model of the JWE (JSON Web Encryption) module of this
repository.  The repository file `src/jwe.rs` holds the module-level API:
each public operation delegates to a lazily constructed process-wide
`DEFAULT_CONTEXT : JweContext`, and the test `test_jwe_compact_serialization`
fixes the concrete behaviour of the Direct (`dir`) key-management algorithm
with the six content-encryption algorithms.  The engine itself
(`JweContext`, `JweHeader`, the algorithm families, content encryption,
compression) lives in sibling modules that are not part of the staged
sources, so those parts are modelled from the specification; each such
definition carries a doc comment starting with `Modelled from the spec:`.
Out-of-scope collaborators (AEAD primitives, base64url and JSON text
encoding, compression, randomness) are modelled as parameters gathered in a
`JweSuite`, with their interface contracts stated by `GoodSuite`; a concrete
executable sample suite witnesses that the contracts are satisfiable and
lets every pipeline evaluate on concrete inputs.
-/

/-- Byte strings are lists of naturals (each entry standing for one octet). -/
abbrev Bytes := List Nat

/-- Modelled from the spec: the error taxonomy of §7 (malformed input,
header conflict, unsupported algorithm, key mismatch, the single opaque
decryption failure, and no applicable algorithm). -/
inductive JoseError where
  | malformedInput
  | headerConflict
  | unsupportedAlgorithm
  | keyMismatch
  | decryptionFailed
  | noApplicableAlgorithm
deriving DecidableEq, Repr

mutual
/-- Modelled from the spec: JSON-typed claim values of the header model
(§3): string, number, boolean, array, object. -/
inductive JsonValue : Type where
  | jstr (s : String)
  | jnum (n : Int)
  | jbool (b : Bool)
  | jarr (items : JsonValues)
  | jobj (fields : JsonFields)
/-- A list of JSON values (the payload of an array value). -/
inductive JsonValues : Type where
  | nil
  | cons (v : JsonValue) (vs : JsonValues)
/-- An ordered association of field names to JSON values (an object value). -/
inductive JsonFields : Type where
  | fnil
  | fcons (name : String) (v : JsonValue) (rest : JsonFields)
end

/-- Modelled from the spec: `JweHeader` (missing module `jwe_header`), an
ordered mapping from claim names to JSON-typed values (§3). -/
structure JweHeader where
  claims : List (String × JsonValue)

/-- Store a claim: replace the first binding of the name in place, or append
a new binding at the end. -/
def setPair : List (String × JsonValue) → String → JsonValue → List (String × JsonValue)
  | [], n, v => [(n, v)]
  | (k, w) :: rest, n, v => if k = n then (n, v) :: rest else (k, w) :: setPair rest n v

/-- Look a claim up by name (first binding wins). -/
def getPair : List (String × JsonValue) → String → Option JsonValue
  | [], _ => none
  | (k, w) :: rest, n => if k = n then some w else getPair rest n

/-- Modelled from the spec: `JweHeader::set_claim` storing a claim value. -/
def JweHeader.setClaim (h : JweHeader) (name : String) (v : JsonValue) : JweHeader :=
  ⟨setPair h.claims name v⟩

/-- Modelled from the spec: claim lookup on a header. -/
def JweHeader.getClaim (h : JweHeader) (name : String) : Option JsonValue :=
  getPair h.claims name

/-- Modelled from the spec: `JweHeader::new`, the empty header. -/
def JweHeader.new : JweHeader := ⟨[]⟩

/-- Modelled from the spec: `set_content_encryption` stores the `enc` claim
as a string value. -/
def JweHeader.set_content_encryption (h : JweHeader) (s : String) : JweHeader :=
  h.setClaim "enc" (.jstr s)

/-- Modelled from the spec: `set_token_type` stores the `typ` claim as a
string value. -/
def JweHeader.set_token_type (h : JweHeader) (s : String) : JweHeader :=
  h.setClaim "typ" (.jstr s)

/-- `true` when no claim name of `a` occurs in `b`. -/
def disjNames (a b : List (String × JsonValue)) : Bool :=
  a.all (fun kv => !(b.any (fun kv2 => kv2.1 = kv.1)))

/-- Modelled from the spec: the six supported content-encryption algorithms
(§2, §4.3): the AES-CBC+HMAC composites and the AES-GCM family. -/
inductive ContentEncType where
  | a128cbc_hs256
  | a192cbc_hs384
  | a256cbc_hs512
  | a128gcm
  | a192gcm
  | a256gcm
deriving DecidableEq, Repr

/-- Modelled from the spec: the wire `enc` identifier of each
content-encryption algorithm. -/
def ContentEncType.name : ContentEncType → String
  | .a128cbc_hs256 => "A128CBC-HS256"
  | .a192cbc_hs384 => "A192CBC-HS384"
  | .a256cbc_hs512 => "A256CBC-HS512"
  | .a128gcm => "A128GCM"
  | .a192gcm => "A192GCM"
  | .a256gcm => "A256GCM"

/-- The CEK length each content-encryption algorithm requires.  The GCM
lengths (16/24/32) follow both the spec and the repository test; the
CBC-HMAC lengths follow the repository's own test
(`test_jwe_compact_serialization`, src/jwe.rs), which encrypts and decrypts
successfully with keys of 32/40/48 bytes for
A128CBC-HS256/A192CBC-HS384/A256CBC-HS512. -/
def ContentEncType.keyLen : ContentEncType → Nat
  | .a128cbc_hs256 => 32
  | .a192cbc_hs384 => 40
  | .a256cbc_hs512 => 48
  | .a128gcm => 16
  | .a192gcm => 24
  | .a256gcm => 32

/-- Modelled from the spec: IV length — block-size (16) bytes for the CBC
composites, 96 bits (12 bytes) for GCM (§4.3). -/
def ContentEncType.ivLen : ContentEncType → Nat
  | .a128cbc_hs256 => 16
  | .a192cbc_hs384 => 16
  | .a256cbc_hs512 => 16
  | .a128gcm => 12
  | .a192gcm => 12
  | .a256gcm => 12

/-- Modelled from the spec: dispatch on the wire `enc` string, with an
explicit unsupported fallback (§9). -/
def encOfName (s : String) : Option ContentEncType :=
  if s = "A128CBC-HS256" then some .a128cbc_hs256
  else if s = "A192CBC-HS384" then some .a192cbc_hs384
  else if s = "A256CBC-HS512" then some .a256cbc_hs512
  else if s = "A128GCM" then some .a128gcm
  else if s = "A192GCM" then some .a192gcm
  else if s = "A256GCM" then some .a256gcm
  else none

/-- Modelled from the spec: a `JweEncrypter` capability (§4.2): bound to an
algorithm identity, `encrypt(cek_requirements)` returns the CEK, the wrapped
key bytes or none, and header additions contributed by the algorithm. -/
structure JweEncrypter where
  algName : String
  encrypt : Nat → Except JoseError (Bytes × Option Bytes × List (String × JsonValue))

/-- Modelled from the spec: a `JweDecrypter` capability (§4.2):
`decrypt(wrapped_key_bytes_or_none, cek_len)` recovers the CEK. -/
structure JweDecrypter where
  algName : String
  decrypt : Option Bytes → Nat → Except JoseError Bytes

/-- Modelled from the spec: the flattened JSON serialization's fields (§6):
optional protected-header bytes (carried base64url-encoded on the wire),
optional shared-unprotected and per-recipient headers, optional encrypted
key, IV, ciphertext, tag, and optional caller-supplied AAD. -/
structure FlatMsg where
  protectedB : Option Bytes
  unprotectedH : Option JweHeader
  recipientH : Option JweHeader
  encryptedKey : Option Bytes
  iv : Bytes
  ciphertext : Bytes
  tag : Bytes
  aad : Option Bytes

/-- The out-of-scope collaborators the engine is specified against (§1):
AEAD content encryption per algorithm, header JSON text encoding, base64url
segment encoding, flattened-JSON message text encoding, and DEFLATE
compression.  The engine is parameterized over such a suite. -/
structure JweSuite where
  headerEnc : JweHeader → Bytes
  headerDec : Bytes → Option JweHeader
  segEnc : Bytes → List Char
  segDec : List Char → Option Bytes
  msgEnc : FlatMsg → List Char
  msgDec : List Char → Option FlatMsg
  cencrypt : ContentEncType → Bytes → Bytes → Bytes → Bytes → Bytes × Bytes
  cdecrypt : ContentEncType → Bytes → Bytes → Bytes → Bytes → Bytes → Option Bytes
  compressFn : Bytes → Bytes
  decompressFn : Bytes → Option Bytes

/-- The interface contracts the spec demands of the collaborators: the text
codecs invert their encoders, base64url text contains no dot and encodes the
empty byte string as the empty text (§6), authenticated encryption
round-trips, a successful decryption identifies the legitimate encryption
that produced it, the tag binds algorithm, IV, AAD and ciphertext, the
ciphertext determines the plaintext under a fixed key/IV/AAD (§4.3, the
ideal-MAC reading of tag verification), and decompression inverts
compression (§4.4). -/
structure GoodSuite (S : JweSuite) : Prop where
  headerRT : ∀ h, S.headerDec (S.headerEnc h) = some h
  segRT : ∀ bs, S.segDec (S.segEnc bs) = some bs
  segNoDot : ∀ bs, '.' ∉ S.segEnc bs
  segNil : S.segEnc [] = []
  msgRT : ∀ m, S.msgDec (S.msgEnc m) = some m
  cencCorrect : ∀ e cek iv aad pt,
    S.cdecrypt e cek iv aad (S.cencrypt e cek iv aad pt).1 (S.cencrypt e cek iv aad pt).2 = some pt
  cencSound : ∀ e cek iv aad ct tg pt,
    S.cdecrypt e cek iv aad ct tg = some pt → S.cencrypt e cek iv aad pt = (ct, tg)
  tagBinds : ∀ e e' cek cek' iv iv' aad aad' pt pt',
    (S.cencrypt e cek iv aad pt).2 = (S.cencrypt e' cek' iv' aad' pt').2 →
    e = e' ∧ iv = iv' ∧ aad = aad' ∧
      (S.cencrypt e cek iv aad pt).1 = (S.cencrypt e' cek' iv' aad' pt').1
  ctInj : ∀ e cek iv aad p p',
    (S.cencrypt e cek iv aad p).1 = (S.cencrypt e cek iv aad p').1 → p = p'
  zipRT : ∀ p, S.decompressFn (S.compressFn p) = some p

/-- Lift an optional value into the engine's error monad. -/
def optE {α : Type} (e : JoseError) : Option α → Except JoseError α
  | some a => .ok a
  | none => .error e

/-- Modelled from the spec: resolve the mandatory `enc` claim of the
effective header (§3: `alg` and `enc` are mandatory; §7: missing mandatory
claims are a header-conflict error, an unrecognized value an
unsupported-algorithm error). -/
def resolveEnc (h : JweHeader) : Except JoseError ContentEncType :=
  match h.getClaim "enc" with
  | some (.jstr s) => optE .unsupportedAlgorithm (encOfName s)
  | some _ => .error .headerConflict
  | none => .error .headerConflict

/-- Modelled from the spec: the `zip` claim selects DEFLATE compression when
it is the string `DEF`; any other value is a hard unsupported-algorithm
error; absence means no compression (§4.4). -/
def zipMode (h : JweHeader) : Except JoseError Bool :=
  match h.getClaim "zip" with
  | none => .ok false
  | some (.jstr s) => if s = "DEF" then .ok true else .error .unsupportedAlgorithm
  | some _ => .error .unsupportedAlgorithm

/-- Modelled from the spec: the decrypt path attempts the algorithm named in
the effective header (§4.5); a decrypter bound to a different algorithm is
not applicable, a missing or non-string `alg` claim is a header conflict. -/
def checkAlg (h : JweHeader) (d : JweDecrypter) : Except JoseError Unit :=
  match h.getClaim "alg" with
  | some (.jstr a) => if a = d.algName then .ok () else .error .noApplicableAlgorithm
  | some _ => .error .headerConflict
  | none => .error .headerConflict

/-- Fold algorithm-contributed header additions into a header. -/
def applyAdds (h : JweHeader) (adds : List (String × JsonValue)) : JweHeader :=
  adds.foldl (fun h kv => h.setClaim kv.1 kv.2) h

/-- Modelled from the spec: build the effective header as the union of the
protected, shared-unprotected and per-recipient views, failing with a header
conflict when any claim name appears in more than one view (§3, §4.1). -/
def mergeViews (p : JweHeader) (u r : Option JweHeader) : Except JoseError JweHeader :=
  let uc := (u.getD ⟨[]⟩).claims
  let rc := (r.getD ⟨[]⟩).claims
  if disjNames p.claims uc && disjNames p.claims rc && disjNames uc rc then
    .ok ⟨p.claims ++ uc ++ rc⟩
  else
    .error .headerConflict

/-- Modelled from the spec: the compact-form AAD is exactly the ASCII bytes
of the base64url text of the protected header bytes (§4.5). -/
def compactAad (S : JweSuite) (pB : Bytes) : Bytes :=
  (S.segEnc pB).map Char.toNat

/-- Modelled from the spec: the JSON-form AAD appends `"." ++
ASCII(base64url(caller_aad))` to the compact-form AAD only when a caller AAD
is present (§4.5). -/
def mkAad (S : JweSuite) (pB : Bytes) (extra : Option Bytes) : Bytes :=
  match extra with
  | none => compactAad S pB
  | some a => compactAad S pB ++ ('.'.toNat :: (S.segEnc a).map Char.toNat)

/-- Modelled from the spec: the compact serialization joins the five
base64url segments with dots; a semantically empty segment is the empty
string (§6). -/
def mkCompact (S : JweSuite) (pB ek iv ct tg : Bytes) : String :=
  ⟨List.intercalate ['.'] [S.segEnc pB, S.segEnc ek, S.segEnc iv, S.segEnc ct, S.segEnc tg]⟩

/-- Split a character list at every dot (the inverse of joining dot-free
segments with dots). -/
def splitDots : List Char → List (List Char)
  | [] => [[]]
  | c :: rest =>
    if c = '.' then [] :: splitDots rest
    else
      match splitDots rest with
      | s :: ss => (c :: s) :: ss
      | [] => [[c]]

/-- Modelled from the spec: the encrypt pipeline for one recipient (§4.5):
resolve `enc` and `zip` from the header, obtain or wrap the CEK, assert the
succeeding algorithm's `alg` claim and the algorithm's header additions into
the protected header, compute the AAD from the encoded protected header,
draw a fresh IV, encrypt the (possibly compressed) payload, and assemble the
compact shape. -/
def serializeCompactCore (S : JweSuite) (rng : Nat → Bytes) (payload : Bytes)
    (header : JweHeader) (enc : JweEncrypter) : Except JoseError String := do
  let ce ← resolveEnc header
  let doZip ← zipMode header
  let (cek, wk, adds) ← enc.encrypt ce.keyLen
  let h2 := applyAdds (header.setClaim "alg" (.jstr enc.algName)) adds
  let pB := S.headerEnc h2
  let iv := rng ce.ivLen
  let pt := if doZip then S.compressFn payload else payload
  let ctg := S.cencrypt ce cek iv (compactAad S pB) pt
  .ok (mkCompact S pB (wk.getD []) iv ctg.1 ctg.2)

/-- Modelled from the spec: the shared tail of the decrypt pipeline (§4.5):
check the decrypter matches the header's `alg`, resolve `enc` and `zip`,
recover the CEK (any key-unwrap/agreement failure collapses to the opaque
decryption failure, §7), reconstruct the AAD from the verbatim protected
bytes and the optional caller AAD, verify and decrypt (failure again the
opaque decryption failure), and decompress only after authentication. -/
def deserializeParts (S : JweSuite) (pB : Bytes) (eff : JweHeader)
    (wk : Option Bytes) (iv ct tg : Bytes) (extraAad : Option Bytes)
    (dec : JweDecrypter) : Except JoseError (Bytes × JweHeader) := do
  let _ ← checkAlg eff dec
  let ce ← resolveEnc eff
  let doZip ← zipMode eff
  let cek ← match dec.decrypt wk ce.keyLen with
    | .ok c => Except.ok c
    | .error _ => Except.error .decryptionFailed
  let pt ← optE .decryptionFailed (S.cdecrypt ce cek iv (mkAad S pB extraAad) ct tg)
  let payload ← if doZip then optE .malformedInput (S.decompressFn pt) else .ok pt
  .ok (payload, eff)

/-- Modelled from the spec: parse the compact shape (wrong segment count or
undecodable text is malformed input, §7), let the selector inspect the
unverified header — it may pick a decrypter, decline, or abort with its own
error — and run the decrypt tail.  An empty encrypted-key segment stands for
an absent wrapped key (§6). -/
def deserializeCompactSel (S : JweSuite) (input : String)
    (sel : JweHeader → Except JoseError (Option JweDecrypter)) :
    Except JoseError (Bytes × JweHeader) :=
  match splitDots input.data with
  | [s1, s2, s3, s4, s5] => do
    let pB ← optE .malformedInput (S.segDec s1)
    let ek ← optE .malformedInput (S.segDec s2)
    let iv ← optE .malformedInput (S.segDec s3)
    let ct ← optE .malformedInput (S.segDec s4)
    let tg ← optE .malformedInput (S.segDec s5)
    let eff ← optE .malformedInput (S.headerDec pB)
    let od ← sel eff
    let dec ← match od with
      | some d => Except.ok d
      | none => Except.error JoseError.noApplicableAlgorithm
    deserializeParts S pB eff (if ek.isEmpty then none else some ek) iv ct tg none dec
  | _ => .error .malformedInput

/-- Modelled from the spec: the flattened-JSON encrypt pipeline (§4.5, §6):
merge the three header views (any colliding claim name fails at build time,
§4.1), resolve `enc`/`zip` from the effective header, obtain the CEK, assert
`alg` and the algorithm's additions into the protected view, re-check the
views for conflicts, compute the AAD from the encoded protected header and
the optional caller AAD, encrypt, and render the flattened object. -/
def serializeFlattenedCore (S : JweSuite) (rng : Nat → Bytes) (payload : Bytes)
    (prot unprot recip : Option JweHeader) (aad : Option Bytes)
    (enc : JweEncrypter) : Except JoseError String := do
  let p0 := prot.getD ⟨[]⟩
  let merged0 ← mergeViews p0 unprot recip
  let ce ← resolveEnc merged0
  let doZip ← zipMode merged0
  let (cek, wk, adds) ← enc.encrypt ce.keyLen
  let p1 := applyAdds (p0.setClaim "alg" (.jstr enc.algName)) adds
  let _ ← mergeViews p1 unprot recip
  let pB := S.headerEnc p1
  let iv := rng ce.ivLen
  let pt := if doZip then S.compressFn payload else payload
  let ctg := S.cencrypt ce cek iv (mkAad S pB aad) pt
  .ok ⟨S.msgEnc ⟨some pB, unprot, recip, wk, iv, ctg.1, ctg.2, aad⟩⟩

/-- Modelled from the spec: parse the flattened-JSON shape, recover the
protected header bytes verbatim, merge the header views, let the selector
inspect the unverified effective header, and run the decrypt tail with the
message's caller AAD (§4.5). -/
def deserializeJsonSel (S : JweSuite) (input : String)
    (sel : JweHeader → Except JoseError (Option JweDecrypter)) :
    Except JoseError (Bytes × JweHeader) := do
  let m ← optE .malformedInput (S.msgDec input.data)
  let pB ← match m.protectedB with
    | some b => Except.ok b
    | none => Except.error JoseError.malformedInput
  let ph ← optE .malformedInput (S.headerDec pB)
  let eff ← mergeViews ph m.unprotectedH m.recipientH
  let od ← sel eff
  let dec ← match od with
    | some d => Except.ok d
    | none => Except.error JoseError.noApplicableAlgorithm
  deserializeParts S pB eff m.encryptedKey m.iv m.ciphertext m.tag m.aad dec

/-- Modelled from the spec: for compact serialization no caller AAD is
permitted — the engine fails if one is supplied (§4.5).  The error kind is
not fixed by the spec; the model reports it as malformed input. -/
def serializeCompactAadCore (S : JweSuite) (rng : Nat → Bytes) (payload : Bytes)
    (header : JweHeader) (aad : Option Bytes) (enc : JweEncrypter) :
    Except JoseError String :=
  match aad with
  | some _ => .error .malformedInput
  | none => serializeCompactCore S rng payload header enc

/-- Modelled from the spec: the engine/context object (missing module
`jwe_context`); `JweContext::new()` takes no configuration. -/
inductive JweContext where
  | new

/-- Modelled from the spec: context method — compact serialization with a
selector; the selector can only pick an encrypter or decline, and declining
is the no-applicable-algorithm failure (§6). -/
def JweContext.serialize_compact_with_selector (_ctx : JweContext) (S : JweSuite)
    (rng : Nat → Bytes) (payload : Bytes) (header : JweHeader)
    (sel : JweHeader → Option JweEncrypter) : Except JoseError String :=
  match sel header with
  | some e => serializeCompactCore S rng payload header e
  | none => .error .noApplicableAlgorithm

/-- Modelled from the spec: context method — compact serialization with a
fixed encrypter, routed through the selector path. -/
def JweContext.serialize_compact (ctx : JweContext) (S : JweSuite)
    (rng : Nat → Bytes) (payload : Bytes) (header : JweHeader)
    (enc : JweEncrypter) : Except JoseError String :=
  ctx.serialize_compact_with_selector S rng payload header (fun _ => some enc)

/-- Modelled from the spec: context method — flattened JSON serialization
with a selector. -/
def JweContext.serialize_flattened_json_with_selector (_ctx : JweContext)
    (S : JweSuite) (rng : Nat → Bytes) (payload : Bytes)
    (prot unprot recip : Option JweHeader) (aad : Option Bytes)
    (sel : JweHeader → Option JweEncrypter) : Except JoseError String :=
  match sel ((prot.getD ⟨[]⟩)) with
  | some e => serializeFlattenedCore S rng payload prot unprot recip aad e
  | none => .error .noApplicableAlgorithm

/-- Modelled from the spec: context method — flattened JSON serialization
with a fixed encrypter. -/
def JweContext.serialize_flattened_json (ctx : JweContext) (S : JweSuite)
    (rng : Nat → Bytes) (payload : Bytes) (prot unprot recip : Option JweHeader)
    (aad : Option Bytes) (enc : JweEncrypter) : Except JoseError String :=
  ctx.serialize_flattened_json_with_selector S rng payload prot unprot recip aad
    (fun _ => some enc)

/-- Modelled from the spec: context method — compact deserialization with a
selector; the selector may abort the whole operation with its own error
(§6). -/
def JweContext.deserialize_compact_with_selector (_ctx : JweContext) (S : JweSuite)
    (input : String) (sel : JweHeader → Except JoseError (Option JweDecrypter)) :
    Except JoseError (Bytes × JweHeader) :=
  deserializeCompactSel S input sel

/-- Modelled from the spec: context method — compact deserialization with a
fixed decrypter, routed through the selector path. -/
def JweContext.deserialize_compact (ctx : JweContext) (S : JweSuite)
    (input : String) (dec : JweDecrypter) : Except JoseError (Bytes × JweHeader) :=
  ctx.deserialize_compact_with_selector S input (fun _ => .ok (some dec))

/-- Modelled from the spec: context method — flattened JSON deserialization
with a selector. -/
def JweContext.deserialize_json_with_selector (_ctx : JweContext) (S : JweSuite)
    (input : String) (sel : JweHeader → Except JoseError (Option JweDecrypter)) :
    Except JoseError (Bytes × JweHeader) :=
  deserializeJsonSel S input sel

/-- Modelled from the spec: context method — flattened JSON deserialization
with a fixed decrypter. -/
def JweContext.deserialize_json (ctx : JweContext) (S : JweSuite)
    (input : String) (dec : JweDecrypter) : Except JoseError (Bytes × JweHeader) :=
  ctx.deserialize_json_with_selector S input (fun _ => .ok (some dec))

/-- The process-wide default context (src/jwe.rs line 57): a lazily
constructed `JweContext::new()`, modelled as a pure top-level value — in the
model it is constructed exactly once and only ever read. -/
def DEFAULT_CONTEXT : JweContext := JweContext.new

/-- src/jwe.rs `serialize_compact`: delegates to the default context. -/
def serialize_compact (S : JweSuite) (rng : Nat → Bytes) (payload : Bytes)
    (header : JweHeader) (enc : JweEncrypter) : Except JoseError String :=
  DEFAULT_CONTEXT.serialize_compact S rng payload header enc

/-- src/jwe.rs `serialize_compact_with_selector`: delegates to the default
context. -/
def serialize_compact_with_selector (S : JweSuite) (rng : Nat → Bytes)
    (payload : Bytes) (header : JweHeader) (sel : JweHeader → Option JweEncrypter) :
    Except JoseError String :=
  DEFAULT_CONTEXT.serialize_compact_with_selector S rng payload header sel

/-- src/jwe.rs `serialize_flattened_json`: delegates to the default
context. -/
def serialize_flattened_json (S : JweSuite) (rng : Nat → Bytes) (payload : Bytes)
    (prot unprot recip : Option JweHeader) (aad : Option Bytes)
    (enc : JweEncrypter) : Except JoseError String :=
  DEFAULT_CONTEXT.serialize_flattened_json S rng payload prot unprot recip aad enc

/-- src/jwe.rs `serialize_flattened_json_with_selector`: delegates to the
default context. -/
def serialize_flattened_json_with_selector (S : JweSuite) (rng : Nat → Bytes)
    (payload : Bytes) (prot unprot recip : Option JweHeader) (aad : Option Bytes)
    (sel : JweHeader → Option JweEncrypter) : Except JoseError String :=
  DEFAULT_CONTEXT.serialize_flattened_json_with_selector S rng payload prot unprot
    recip aad sel

/-- src/jwe.rs `deserialize_compact`: delegates to the default context. -/
def deserialize_compact (S : JweSuite) (input : String) (dec : JweDecrypter) :
    Except JoseError (Bytes × JweHeader) :=
  DEFAULT_CONTEXT.deserialize_compact S input dec

/-- src/jwe.rs `deserialize_compact_with_selector`: delegates to the default
context. -/
def deserialize_compact_with_selector (S : JweSuite) (input : String)
    (sel : JweHeader → Except JoseError (Option JweDecrypter)) :
    Except JoseError (Bytes × JweHeader) :=
  DEFAULT_CONTEXT.deserialize_compact_with_selector S input sel

/-- src/jwe.rs `deserialize_json`: delegates to the default context. -/
def deserialize_json (S : JweSuite) (input : String) (dec : JweDecrypter) :
    Except JoseError (Bytes × JweHeader) :=
  DEFAULT_CONTEXT.deserialize_json S input dec

/-- src/jwe.rs `deserialize_json_with_selector`: delegates to the default
context. -/
def deserialize_json_with_selector (S : JweSuite) (input : String)
    (sel : JweHeader → Except JoseError (Option JweDecrypter)) :
    Except JoseError (Bytes × JweHeader) :=
  DEFAULT_CONTEXT.deserialize_json_with_selector S input sel

/-- The Direct key-management algorithm (src/jwe.rs re-exports
`DirectJweAlgorithm::Dir`). -/
inductive DirectJweAlgorithm where
  | Dir

/-- Modelled from the spec: the wire `alg` identifier of Direct is `dir`. -/
def DirectJweAlgorithm.name : DirectJweAlgorithm → String
  | .Dir => "dir"

/-- Modelled from the spec: a Direct encrypter uses the provided key as the
CEK itself and produces no wrapped-key segment and no header additions; the
content-encryption algorithm fixes the required key length, and encryption
with a key of any other length fails as a key mismatch (§4.2). -/
def DirectJweAlgorithm.encrypter_from_bytes (a : DirectJweAlgorithm) (key : Bytes) :
    Except JoseError JweEncrypter :=
  .ok { algName := a.name
        encrypt := fun cekLen =>
          if key.length = cekLen then .ok (key, none, []) else .error .keyMismatch }

/-- Modelled from the spec: a Direct decrypter returns the provided key as
the CEK; a present wrapped-key segment or a key whose length does not match
the content-encryption algorithm's requirement is a key mismatch (§4.2). -/
def DirectJweAlgorithm.decrypter_from_bytes (a : DirectJweAlgorithm) (key : Bytes) :
    Except JoseError JweDecrypter :=
  .ok { algName := a.name
        decrypt := fun wk cekLen =>
          match wk with
          | some _ => .error .keyMismatch
          | none => if key.length = cekLen then .ok key else .error .keyMismatch }

/-- Flip bit `k` of a byte. -/
def flipByte (b k : Nat) : Nat := b ^^^ (1 <<< k)

/-- Flip bit `k` of byte `i` of a byte string. -/
def flipBit (bs : Bytes) (i k : Nat) : Bytes :=
  bs.set i (flipByte (bs.getD i 0) k)

/-- Unary encoding of a natural: `n` ones then a zero. -/
def encNat (n : Nat) : Bytes := List.replicate n 1 ++ [0]

/-- Decode a unary-encoded natural, returning the remainder. -/
def decNat : Bytes → Option (Nat × Bytes)
  | 0 :: rest => some (0, rest)
  | 1 :: rest =>
    match decNat rest with
    | some (n, r) => some (n + 1, r)
    | none => none
  | _ => none

/-- Take exactly `n` leading entries, returning them and the remainder. -/
def takeN (n : Nat) (bs : Bytes) : Option (Bytes × Bytes) :=
  if bs.length < n then none else some (bs.take n, bs.drop n)

/-- Length-prefixed encoding of a string as its characters' code points. -/
def encStr (s : String) : Bytes := encNat s.data.length ++ s.data.map Char.toNat

/-- Decode a length-prefixed string. -/
def decStr (bs : Bytes) : Option (String × Bytes) :=
  match decNat bs with
  | some (n, r) =>
    match takeN n r with
    | some (cs, r2) => some (String.mk (cs.map Char.ofNat), r2)
    | none => none
  | none => none

/-- Sign-tagged encoding of an integer. -/
def encInt : Int → Bytes
  | .ofNat m => 0 :: encNat m
  | .negSucc m => 1 :: encNat m

/-- Decode a sign-tagged integer. -/
def decInt : Bytes → Option (Int × Bytes)
  | 0 :: rest =>
    match decNat rest with
    | some (n, r) => some ((n : Int), r)
    | none => none
  | 1 :: rest =>
    match decNat rest with
    | some (n, r) => some (Int.negSucc n, r)
    | none => none
  | _ => none

mutual
/-- Tagged byte encoding of a JSON value (the sample header codec). -/
def encVal : JsonValue → Bytes
  | .jstr s => 0 :: encStr s
  | .jnum n => 1 :: encInt n
  | .jbool b => 2 :: [cond b 1 0]
  | .jarr vs => 3 :: encVals vs
  | .jobj fs => 4 :: encFields fs
/-- Byte encoding of a JSON value list. -/
def encVals : JsonValues → Bytes
  | .nil => [0]
  | .cons v vs => 1 :: (encVal v ++ encVals vs)
/-- Byte encoding of JSON object fields. -/
def encFields : JsonFields → Bytes
  | .fnil => [0]
  | .fcons k v fs => 1 :: (encStr k ++ (encVal v ++ encFields fs))
end

mutual
/-- Fuelled decoder for a JSON value. -/
def decVal : Nat → Bytes → Option (JsonValue × Bytes)
  | 0, _ => none
  | _ + 1, 0 :: rest =>
    match decStr rest with
    | some (s, r) => some (.jstr s, r)
    | none => none
  | _ + 1, 1 :: rest =>
    match decInt rest with
    | some (n, r) => some (.jnum n, r)
    | none => none
  | _ + 1, 2 :: 0 :: rest => some (.jbool false, rest)
  | _ + 1, 2 :: 1 :: rest => some (.jbool true, rest)
  | f + 1, 3 :: rest =>
    match decVals f rest with
    | some (vs, r) => some (.jarr vs, r)
    | none => none
  | f + 1, 4 :: rest =>
    match decFields f rest with
    | some (fs, r) => some (.jobj fs, r)
    | none => none
  | _ + 1, _ => none
/-- Fuelled decoder for a JSON value list. -/
def decVals : Nat → Bytes → Option (JsonValues × Bytes)
  | 0, _ => none
  | _ + 1, 0 :: rest => some (.nil, rest)
  | f + 1, 1 :: rest =>
    match decVal f rest with
    | some (v, r) =>
      match decVals f r with
      | some (vs, r2) => some (.cons v vs, r2)
      | none => none
    | none => none
  | _ + 1, _ => none
/-- Fuelled decoder for JSON object fields. -/
def decFields : Nat → Bytes → Option (JsonFields × Bytes)
  | 0, _ => none
  | _ + 1, 0 :: rest => some (.fnil, rest)
  | f + 1, 1 :: rest =>
    match decStr rest with
    | some (k, r) =>
      match decVal f r with
      | some (v, r2) =>
        match decFields f r2 with
        | some (fs, r3) => some (.fcons k v fs, r3)
        | none => none
      | none => none
    | none => none
  | _ + 1, _ => none
end

/-- Byte encoding of a header's claims list. -/
def encClaims : List (String × JsonValue) → Bytes
  | [] => [0]
  | (k, v) :: rest => 1 :: (encStr k ++ (encVal v ++ encClaims rest))

/-- Fuelled decoder for a claims list. -/
def decClaims : Nat → Bytes → Option (List (String × JsonValue) × Bytes)
  | 0, _ => none
  | _ + 1, 0 :: rest => some ([], rest)
  | f + 1, 1 :: rest =>
    match decStr rest with
    | some (k, r) =>
      match decVal f r with
      | some (v, r2) =>
        match decClaims f r2 with
        | some (cs, r3) => some ((k, v) :: cs, r3)
        | none => none
      | none => none
    | none => none
  | _ + 1, _ => none

/-- The sample header codec's encoder. -/
def sampleHeaderEnc (h : JweHeader) : Bytes := encClaims h.claims

/-- The sample header codec's decoder: decode a claims list and require the
input to be exactly consumed. -/
def sampleHeaderDec (bs : Bytes) : Option JweHeader :=
  match decClaims (bs.length + 1) bs with
  | some (cs, []) => some ⟨cs⟩
  | _ => none

/-- A decimal digit character. -/
def digChar (d : Nat) : Char := Char.ofNat (48 + d)

/-- The value of a decimal digit character. -/
def digVal (c : Char) : Nat := c.toNat - 48

/-- Fuelled little-endian decimal digit characters of a natural. -/
def toDecCharsF : Nat → Nat → List Char
  | 0, _ => []
  | f + 1, n => if n < 10 then [digChar n] else digChar (n % 10) :: toDecCharsF f (n / 10)

/-- Little-endian decimal digit characters of a natural. -/
def toDecChars (n : Nat) : List Char := toDecCharsF (n + 1) n

/-- Parse a little-endian decimal number terminated by a semicolon. -/
def parseDec : List Char → Option (Nat × List Char)
  | [] => none
  | c :: rest =>
    if c = ';' then none
    else if c.isDigit then
      match rest with
      | [] => none
      | c2 :: r2 =>
        if c2 = ';' then some (digVal c, r2)
        else
          match parseDec rest with
          | some (n, r) => some (digVal c + 10 * n, r)
          | none => none
    else none

/-- The sample segment codec: each byte as semicolon-terminated decimal
digits (dot-free text, empty bytes to empty text). -/
def sampleSegEnc : Bytes → List Char
  | [] => []
  | b :: bs => toDecChars b ++ ';' :: sampleSegEnc bs

/-- Fuelled decoder for the sample segment codec. -/
def sampleSegDecF : Nat → List Char → Option Bytes
  | _, [] => some []
  | 0, _ :: _ => none
  | f + 1, cs =>
    match parseDec cs with
    | some (b, r) =>
      match sampleSegDecF f r with
      | some bs => some (b :: bs)
      | none => none
    | none => none

/-- The sample segment codec's decoder. -/
def sampleSegDec (cs : List Char) : Option Bytes := sampleSegDecF cs.length cs

/-- Length-prefixed encoding of raw bytes. -/
def encBytes (bs : Bytes) : Bytes := encNat bs.length ++ bs

/-- Decode length-prefixed raw bytes. -/
def decBytes (bs : Bytes) : Option (Bytes × Bytes) :=
  match decNat bs with
  | some (n, r) => takeN n r
  | none => none

/-- Presence-tagged encoding of optional bytes. -/
def encOptBytes : Option Bytes → Bytes
  | none => [0]
  | some bs => 1 :: encBytes bs

/-- Decode presence-tagged optional bytes. -/
def decOptBytes : Bytes → Option (Option Bytes × Bytes)
  | 0 :: r => some (none, r)
  | 1 :: r =>
    match decBytes r with
    | some (bs, r2) => some (some bs, r2)
    | none => none
  | _ => none

/-- Presence-tagged encoding of an optional header. -/
def encOptHeader : Option JweHeader → Bytes
  | none => [0]
  | some h => 1 :: encClaims h.claims

/-- Decoder for an optional header (fuel drawn from the input length). -/
def decOptHeader : Bytes → Option (Option JweHeader × Bytes)
  | 0 :: r => some (none, r)
  | 1 :: r =>
    match decClaims (r.length + 1) r with
    | some (cs, r2) => some (some ⟨cs⟩, r2)
    | none => none
  | _ => none

/-- Byte encoding of a flattened message record. -/
def encFlat (m : FlatMsg) : Bytes :=
  encOptBytes m.protectedB ++ (encOptHeader m.unprotectedH ++ (encOptHeader m.recipientH ++
    (encOptBytes m.encryptedKey ++ (encBytes m.iv ++ (encBytes m.ciphertext ++
    (encBytes m.tag ++ encOptBytes m.aad))))))

/-- Decoder for a flattened message record. -/
def decFlat (bs : Bytes) : Option (FlatMsg × Bytes) := do
  let (pB, r1) ← decOptBytes bs
  let (uh, r2) ← decOptHeader r1
  let (rh, r3) ← decOptHeader r2
  let (ek, r4) ← decOptBytes r3
  let (iv, r5) ← decBytes r4
  let (ct, r6) ← decBytes r5
  let (tg, r7) ← decBytes r6
  let (aad, r8) ← decOptBytes r7
  some (⟨pB, uh, rh, ek, iv, ct, tg, aad⟩, r8)

/-- The sample message codec's encoder. -/
def sampleMsgEnc (m : FlatMsg) : List Char := sampleSegEnc (encFlat m)

/-- The sample message codec's decoder (exact consumption required). -/
def sampleMsgDec (cs : List Char) : Option FlatMsg :=
  match sampleSegDec cs with
  | some bs =>
    match decFlat bs with
    | some (m, []) => some m
    | _ => none
  | none => none

/-- A numeric code for each content-encryption algorithm. -/
def encCode : ContentEncType → Nat
  | .a128cbc_hs256 => 0
  | .a192cbc_hs384 => 1
  | .a256cbc_hs512 => 2
  | .a128gcm => 3
  | .a192gcm => 4
  | .a256gcm => 5

/-- The sample AEAD's tag: a transcript binding the algorithm, IV, AAD and
ciphertext (an ideal MAC standing in for the out-of-scope HMAC/GHASH). -/
def mkTag (e : ContentEncType) (iv aad ct : Bytes) : Bytes :=
  encCode e :: iv.length :: (iv ++ aad.length :: (aad ++ ct))

/-- The sample AEAD's encryption (ciphertext mirrors the plaintext; the
interesting behaviour for the engine is the authenticating tag). -/
def sampleCencrypt (e : ContentEncType) (_cek iv aad pt : Bytes) : Bytes × Bytes :=
  (pt, mkTag e iv aad pt)

/-- The sample AEAD's decryption: verify the transcript tag, else fail. -/
def sampleCdecrypt (e : ContentEncType) (_cek iv aad ct tg : Bytes) : Option Bytes :=
  if tg = mkTag e iv aad ct then some ct else none

/-- The sample collaborator suite: executable codecs and an ideal AEAD. -/
def sampleSuite : JweSuite where
  headerEnc := sampleHeaderEnc
  headerDec := sampleHeaderDec
  segEnc := sampleSegEnc
  segDec := sampleSegDec
  msgEnc := sampleMsgEnc
  msgDec := sampleMsgDec
  cencrypt := sampleCencrypt
  cdecrypt := sampleCdecrypt
  compressFn := fun p => p
  decompressFn := fun p => some p

/-- A fixed entropy source for concrete runs. -/
def sampleRng (n : Nat) : Bytes := List.replicate n 3

/-- Is an engine result a success? -/
def isOkE {α : Type} : Except JoseError α → Bool
  | .ok _ => true
  | .error _ => false

/-- Unwrap an engine result with a fallback. -/
def exceptGet {α : Type} (d : α) : Except JoseError α → α
  | .ok a => a
  | .error _ => d

/-- A vacuous encrypter used only as an `exceptGet` fallback. -/
def noEncrypter : JweEncrypter := ⟨"", fun _ => .error .keyMismatch⟩

/-- A vacuous decrypter used only as an `exceptGet` fallback. -/
def noDecrypter : JweDecrypter := ⟨"", fun _ _ => .error .keyMismatch⟩

/-- The byte string of the repository test's payload `"test payload!"`. -/
def testPayload : Bytes := [116, 101, 115, 116, 32, 112, 97, 121, 108, 111, 97, 100, 33]

/-- A 32-byte key (the test's `A256GCM` length). -/
def testKey32 : Bytes := List.replicate 32 9

/-- A 40-byte key (the test's `A192CBC-HS384` length). -/
def testKey40 : Bytes := List.replicate 40 9

/-- A 48-byte key. -/
def testKey48 : Bytes := List.replicate 48 9

/-- A 16-byte key (wrong for every 32-byte-CEK algorithm). -/
def testKey16 : Bytes := List.replicate 16 9

/-- The test's header: `enc = A256GCM`, `typ = JWT`. -/
def testHeaderA256 : JweHeader :=
  (JweHeader.new.set_content_encryption "A256GCM").set_token_type "JWT"

/-- A header selecting `A192CBC-HS384`. -/
def testHeaderA192cbc : JweHeader :=
  (JweHeader.new.set_content_encryption "A192CBC-HS384").set_token_type "JWT"

/-- The Direct encrypter over the 32-byte key (as the test builds it). -/
def dirEnc32 : JweEncrypter :=
  exceptGet noEncrypter (DirectJweAlgorithm.Dir.encrypter_from_bytes testKey32)

/-- The Direct decrypter over the 32-byte key. -/
def dirDec32 : JweDecrypter :=
  exceptGet noDecrypter (DirectJweAlgorithm.Dir.decrypter_from_bytes testKey32)

/-- The Direct encrypter over the 40-byte key. -/
def dirEnc40 : JweEncrypter :=
  exceptGet noEncrypter (DirectJweAlgorithm.Dir.encrypter_from_bytes testKey40)

/-- The Direct encrypter over the 48-byte key. -/
def dirEnc48 : JweEncrypter :=
  exceptGet noEncrypter (DirectJweAlgorithm.Dir.encrypter_from_bytes testKey48)

/-- The Direct decrypter over the 16-byte key (a key-mismatch case). -/
def dirDec16 : JweDecrypter :=
  exceptGet noDecrypter (DirectJweAlgorithm.Dir.decrypter_from_bytes testKey16)

/-- The wire protected header of the concrete `A256GCM`/Direct run: the
test header with the succeeding algorithm's `alg` claim asserted. -/
def ex256H2 : JweHeader := testHeaderA256.setClaim "alg" (.jstr "dir")

/-- Its encoded protected-header bytes under the sample suite. -/
def ex256PB : Bytes := sampleSuite.headerEnc ex256H2

/-- The IV the sample entropy source yields for `A256GCM`. -/
def ex256Iv : Bytes := sampleRng ContentEncType.a256gcm.ivLen

/-- The ciphertext/tag pair of the concrete run. -/
def ex256Ctg : Bytes × Bytes :=
  sampleSuite.cencrypt .a256gcm testKey32 ex256Iv (compactAad sampleSuite ex256PB) testPayload

/-- The concrete compact serialization the run produces. -/
def ex256Wire : String := mkCompact sampleSuite ex256PB [] ex256Iv ex256Ctg.1 ex256Ctg.2

/-- The same wire with one bit of the protected-header bytes flipped. -/
def ex256WireHdrFlip : String :=
  mkCompact sampleSuite (flipBit ex256PB 0 0) [] ex256Iv ex256Ctg.1 ex256Ctg.2

/-- The concrete flattened message of the same run (no unprotected views,
no caller AAD). -/
def exFlatWire : String :=
  ⟨sampleMsgEnc ⟨some ex256PB, none, none, none, ex256Iv, ex256Ctg.1, ex256Ctg.2, none⟩⟩

/-- Modelled from the spec: an encrypter in the style of the AES-GCM
key-wrap family (§4.2), which publishes fresh `iv` and `tag` values as
header claims; the wrap itself is out-of-scope AES-GCM, modelled as an
identity wrap for the concrete run. -/
def kwEncrypterX : JweEncrypter where
  algName := "A128GCMKW"
  encrypt := fun cekLen =>
    .ok (List.replicate cekLen 7, some (List.replicate cekLen 7),
      [("iv", .jstr "i1"), ("tag", .jstr "t1")])

/-- The matching decrypter: recovers the CEK from the wrapped bytes. -/
def kwDecrypterX : JweDecrypter where
  algName := "A128GCMKW"
  decrypt := fun wk _ =>
    match wk with
    | some b => .ok b
    | none => .error .keyMismatch

/-- A header selecting `A128GCM` for the key-wrap-style run. -/
def kwHeader : JweHeader := JweHeader.new.set_content_encryption "A128GCM"

/-- The wire protected header of the key-wrap-style run: `alg` asserted and
the algorithm's `iv`/`tag` header additions applied. -/
def kwH2 : JweHeader :=
  applyAdds (kwHeader.setClaim "alg" (.jstr "A128GCMKW"))
    [("iv", .jstr "i1"), ("tag", .jstr "t1")]

/-- Its encoded protected-header bytes. -/
def kwPB : Bytes := sampleSuite.headerEnc kwH2

/-- The IV of the key-wrap-style run. -/
def kwIv : Bytes := sampleRng ContentEncType.a128gcm.ivLen

/-- The CEK the key-wrap-style encrypter generates for a 16-byte requirement. -/
def kwCek : Bytes := List.replicate 16 7

/-- The ciphertext/tag pair of the key-wrap-style run. -/
def kwCtg : Bytes × Bytes :=
  sampleSuite.cencrypt .a128gcm kwCek kwIv (compactAad sampleSuite kwPB) testPayload

/-- The compact serialization of the key-wrap-style run (the wrapped-key
segment carries the identity-wrapped CEK). -/
def kwWire : String := mkCompact sampleSuite kwPB kwCek kwIv kwCtg.1 kwCtg.2


theorem decNat_enc (n : Nat) (rest : Bytes) : decNat (encNat n ++ rest) = some (n, rest) := by
  induction n with
  | zero => simp [encNat, decNat]
  | succ n ih =>
    simp only [encNat, List.replicate_succ, List.cons_append, decNat, List.append_eq] at ih ⊢
    rw [ih]

theorem takeN_append (a b : Bytes) : takeN a.length (a ++ b) = some (a, b) := by
  simp [takeN, List.take_left, List.drop_left]

theorem decStr_enc (s : String) (rest : Bytes) : decStr (encStr s ++ rest) = some (s, rest) := by
  obtain ⟨d⟩ := s
  have hlen : (d.map Char.toNat).length = d.length := List.length_map d Char.toNat
  simp only [encStr, List.append_assoc, decStr, decNat_enc]
  rw [← hlen, takeN_append]
  have hid : Char.ofNat ∘ Char.toNat = id := funext Char.ofNat_toNat
  simp [List.map_map, hid]

theorem decInt_enc (n : Int) (rest : Bytes) : decInt (encInt n ++ rest) = some (n, rest) := by
  cases n with
  | ofNat m => simp [encInt, decInt, decNat_enc]
  | negSucc m => simp [encInt, decInt, decNat_enc]

mutual
theorem decVal_enc (v : JsonValue) (f : Nat) (rest : Bytes)
    (hf : (encVal v).length ≤ f) : decVal f (encVal v ++ rest) = some (v, rest) := by
  obtain ⟨g, rfl⟩ : ∃ g, f = g + 1 := by
    have h1 : 1 ≤ (encVal v).length := by cases v <;> simp [encVal]
    exact ⟨f - 1, by omega⟩
  cases v with
  | jstr s => simp [encVal, decVal, decStr_enc]
  | jnum n => simp [encVal, decVal, decInt_enc]
  | jbool b => cases b <;> simp [encVal, decVal]
  | jarr vs =>
    have h2 : (encVals vs).length ≤ g := by
      simp only [encVal, List.length_cons] at hf; omega
    simp [encVal, decVal, decVals_enc vs g rest h2]
  | jobj fs =>
    have h2 : (encFields fs).length ≤ g := by
      simp only [encVal, List.length_cons] at hf; omega
    simp [encVal, decVal, decFields_enc fs g rest h2]
theorem decVals_enc (vs : JsonValues) (f : Nat) (rest : Bytes)
    (hf : (encVals vs).length ≤ f) : decVals f (encVals vs ++ rest) = some (vs, rest) := by
  obtain ⟨g, rfl⟩ : ∃ g, f = g + 1 := by
    have h1 : 1 ≤ (encVals vs).length := by cases vs <;> simp [encVals]
    exact ⟨f - 1, by omega⟩
  cases vs with
  | nil => simp [encVals, decVals]
  | cons v vs' =>
    have hv : (encVal v).length ≤ g := by
      simp only [encVals, List.length_cons, List.length_append] at hf; omega
    have hvs : (encVals vs').length ≤ g := by
      simp only [encVals, List.length_cons, List.length_append] at hf; omega
    simp [encVals, decVals, List.append_assoc, decVal_enc v g _ hv,
      decVals_enc vs' g rest hvs]
theorem decFields_enc (fs : JsonFields) (f : Nat) (rest : Bytes)
    (hf : (encFields fs).length ≤ f) : decFields f (encFields fs ++ rest) = some (fs, rest) := by
  obtain ⟨g, rfl⟩ : ∃ g, f = g + 1 := by
    have h1 : 1 ≤ (encFields fs).length := by cases fs <;> simp [encFields]
    exact ⟨f - 1, by omega⟩
  cases fs with
  | fnil => simp [encFields, decFields]
  | fcons k v fs' =>
    have hv : (encVal v).length ≤ g := by
      simp only [encFields, List.length_cons, List.length_append] at hf; omega
    have hfs : (encFields fs').length ≤ g := by
      simp only [encFields, List.length_cons, List.length_append] at hf; omega
    simp [encFields, decFields, List.append_assoc, decStr_enc, decVal_enc v g _ hv,
      decFields_enc fs' g rest hfs]
end

theorem decClaims_enc (cs : List (String × JsonValue)) (f : Nat) (rest : Bytes)
    (hf : (encClaims cs).length ≤ f) : decClaims f (encClaims cs ++ rest) = some (cs, rest) := by
  induction cs generalizing f rest with
  | nil =>
    obtain ⟨g, rfl⟩ : ∃ g, f = g + 1 := ⟨f - 1, by simp [encClaims] at hf; omega⟩
    simp [encClaims, decClaims]
  | cons kv cs' ih =>
    obtain ⟨k, v⟩ := kv
    obtain ⟨g, rfl⟩ : ∃ g, f = g + 1 := ⟨f - 1, by simp [encClaims] at hf; omega⟩
    have hv : (encVal v).length ≤ g := by
      simp only [encClaims, List.length_cons, List.length_append] at hf; omega
    have hcs : (encClaims cs').length ≤ g := by
      simp only [encClaims, List.length_cons, List.length_append] at hf; omega
    simp [encClaims, decClaims, List.append_assoc, decStr_enc, decVal_enc v g _ hv,
      ih g rest hcs]

theorem sampleHeaderRT (h : JweHeader) : sampleHeaderDec (sampleHeaderEnc h) = some h := by
  obtain ⟨cs⟩ := h
  have := decClaims_enc cs ((encClaims cs).length + 1) [] (by omega)
  simp only [List.append_nil] at this
  simp [sampleHeaderDec, sampleHeaderEnc, this]

theorem digChar_isDigit (d : Nat) (h : d < 10) : (digChar d).isDigit = true := by
  interval_cases d <;> decide

theorem digVal_digChar (d : Nat) (h : d < 10) : digVal (digChar d) = d := by
  interval_cases d <;> decide

theorem digChar_ne_semi (d : Nat) (h : d < 10) : digChar d ≠ ';' := by
  interval_cases d <;> decide

theorem isDigit_ne_dot (c : Char) (h : c.isDigit = true) : c ≠ '.' := by
  rintro rfl
  exact absurd h (by decide)

theorem isDigit_ne_semi (c : Char) (h : c.isDigit = true) : c ≠ ';' := by
  rintro rfl
  exact absurd h (by decide)

theorem toDecCharsF_adequate (f : Nat) : ∀ f' n : Nat, n < f → n < f' →
    toDecCharsF f n = toDecCharsF f' n := by
  induction f with
  | zero => intro f' n h h'; omega
  | succ g ih =>
    intro f' n h h'
    cases f' with
    | zero => omega
    | succ g' =>
      simp only [toDecCharsF]
      split
    
      · rfl
      · next hn =>
        have hdiv : n / 10 < n := Nat.div_lt_self (by omega) (by omega)
        rw [ih g' (n / 10) (by omega) (by omega)]

theorem toDecChars_eq (n : Nat) :
    toDecChars n = if n < 10 then [digChar n] else digChar (n % 10) :: toDecChars (n / 10) := by
  show toDecCharsF (n + 1) n = _
  simp only [toDecCharsF]
  split
  · rfl
  · next hn =>
    have hdiv : n / 10 < n := Nat.div_lt_self (by omega) (by omega)
    rw [toDecCharsF_adequate n (n / 10 + 1) (n / 10) (by omega) (by omega)]
    rfl

theorem toDec_head (n : Nat) : ∃ c cs, toDecChars n = c :: cs ∧ c.isDigit = true := by
  rw [toDecChars_eq]
  split
  · next h => exact ⟨digChar n, [], rfl, digChar_isDigit n h⟩
  · next h =>
    exact ⟨digChar (n % 10), _, rfl, digChar_isDigit _ (Nat.mod_lt _ (by omega))⟩

theorem toDec_mem_digit (n : Nat) : ∀ c ∈ toDecChars n, c.isDigit = true := by
  induction n using Nat.strong_induction_on with
  | _ n ih =>
    rw [toDecChars_eq]
    split
    · next h =>
      intro c hc
      simp only [List.mem_singleton] at hc
      subst hc
      exact digChar_isDigit n h
    · next h =>
      intro c hc
      simp only [List.mem_cons] at hc
      rcases hc with rfl | hc
      · exact digChar_isDigit _ (Nat.mod_lt _ (by omega))
      · exact ih (n / 10) (Nat.div_lt_self (by omega) (by omega)) c hc

theorem parseDec_cons_cons (c c2 : Char) (r2 : List Char) :
    parseDec (c :: c2 :: r2) =
      if c = ';' then none
      else if c.isDigit then
        (if c2 = ';' then some (digVal c, r2)
         else
           match parseDec (c2 :: r2) with
           | some (n, r) => some (digVal c + 10 * n, r)
           | none => none)
      else none := rfl

theorem parseDec_enc (n : Nat) (rest : List Char) :
    parseDec (toDecChars n ++ ';' :: rest) = some (n, rest) := by
  induction n using Nat.strong_induction_on generalizing rest with
  | _ n ih =>
    rw [toDecChars_eq]
    split
    · next h =>
      simp only [List.singleton_append, parseDec_cons_cons]
      rw [if_neg (digChar_ne_semi n h), if_pos (digChar_isDigit n h)]
      simp [digVal_digChar n h]
    · next h =>
      obtain ⟨c2, cs2, heq, hdig⟩ := toDec_head (n / 10)
      have h10 : n % 10 < 10 := Nat.mod_lt _ (by omega)
      rw [heq, List.cons_append, List.cons_append, parseDec_cons_cons,
        if_neg (digChar_ne_semi _ h10), if_pos (digChar_isDigit _ h10),
        if_neg (isDigit_ne_semi c2 hdig), ← List.cons_append, ← heq,
        ih (n / 10) (Nat.div_lt_self (by omega) (by omega)) rest]
      simp [digVal_digChar _ h10, Nat.mod_add_div]

theorem segDecF_enc (bs : Bytes) (f : Nat) (hf : (sampleSegEnc bs).length ≤ f) :
    sampleSegDecF f (sampleSegEnc bs) = some bs := by
  induction bs generalizing f with
  | nil => cases f <;> simp [sampleSegEnc, sampleSegDecF]
  | cons b bs' ih =>
    obtain ⟨c, cs, heq, hdig⟩ := toDec_head b
    obtain ⟨g, rfl⟩ : ∃ g, f = g + 1 := by
      refine ⟨f - 1, ?_⟩
      simp only [sampleSegEnc, heq, List.cons_append, List.length_cons] at hf
      omega
    have hlen : (sampleSegEnc bs').length ≤ g := by
      simp only [sampleSegEnc, heq, List.cons_append, List.length_cons,
        List.length_append] at hf
      omega
    have hp := parseDec_enc b (sampleSegEnc bs')
    show sampleSegDecF (g + 1) (sampleSegEnc (b :: bs')) = some (b :: bs')
    rw [sampleSegEnc, heq, List.cons_append]
    simp only [sampleSegDecF]
    rw [← List.cons_append, ← heq, hp]
    simp [ih g hlen]

theorem sampleSegRT (bs : Bytes) : sampleSegDec (sampleSegEnc bs) = some bs :=
  segDecF_enc bs _ le_rfl

theorem sampleSegNoDot (bs : Bytes) : '.' ∉ sampleSegEnc bs := by
  induction bs with
  | nil => simp [sampleSegEnc]
  | cons b bs' ih =>
    simp only [sampleSegEnc, List.mem_append, List.mem_cons]
    rintro (hmem | habs | hmem)
    · exact isDigit_ne_dot _ (toDec_mem_digit b _ hmem) rfl
    · exact (by decide : ('.' : Char) ≠ ';') habs
    · exact ih hmem

theorem decBytes_enc (bs rest : Bytes) : decBytes (encBytes bs ++ rest) = some (bs, rest) := by
  simp only [encBytes, List.append_assoc, decBytes, decNat_enc]
  exact takeN_append bs rest

theorem decOptBytes_enc (ob : Option Bytes) (rest : Bytes) :
    decOptBytes (encOptBytes ob ++ rest) = some (ob, rest) := by
  cases ob with
  | none => simp [encOptBytes, decOptBytes]
  | some bs => simp [encOptBytes, decOptBytes, decBytes_enc]

theorem decOptHeader_enc (oh : Option JweHeader) (rest : Bytes) :
    decOptHeader (encOptHeader oh ++ rest) = some (oh, rest) := by
  cases oh with
  | none => simp [encOptHeader, decOptHeader]
  | some h =>
    obtain ⟨cs⟩ := h
    have hf : (encClaims cs).length ≤ (encClaims cs).length + rest.length + 1 := by omega
    simp [encOptHeader, decOptHeader, List.length_append,
      decClaims_enc cs ((encClaims cs).length + rest.length + 1) rest hf]

theorem decFlat_enc (m : FlatMsg) (rest : Bytes) : decFlat (encFlat m ++ rest) = some (m, rest) := by
  obtain ⟨pB, uh, rh, ek, iv, ct, tg, aad⟩ := m
  simp [encFlat, decFlat, List.append_assoc, decOptBytes_enc, decOptHeader_enc, decBytes_enc]

theorem sampleMsgRT (m : FlatMsg) : sampleMsgDec (sampleMsgEnc m) = some m := by
  have h2 := decFlat_enc m []
  simp only [List.append_nil] at h2
  simp [sampleMsgDec, sampleMsgEnc, sampleSegRT, h2]

theorem encCode_inj (e e' : ContentEncType) (h : encCode e = encCode e') : e = e' := by
  cases e <;> cases e' <;> first | rfl | (exact absurd h (by decide))

theorem mkTag_inj (e e' : ContentEncType) (iv iv' aad aad' ct ct' : Bytes)
    (h : mkTag e iv aad ct = mkTag e' iv' aad' ct') :
    e = e' ∧ iv = iv' ∧ aad = aad' ∧ ct = ct' := by
  unfold mkTag at h
  simp only [List.cons.injEq] at h
  obtain ⟨h1, h2, h3⟩ := h
  obtain ⟨hiv, h4⟩ := List.append_inj h3 h2
  simp only [List.cons.injEq] at h4
  obtain ⟨h5, h6⟩ := h4
  obtain ⟨haad, hct⟩ := List.append_inj h6 h5
  exact ⟨encCode_inj e e' h1, hiv, haad, hct⟩

theorem sampleGood : GoodSuite sampleSuite where
  headerRT := sampleHeaderRT
  segRT := sampleSegRT
  segNoDot := sampleSegNoDot
  segNil := rfl
  msgRT := sampleMsgRT
  cencCorrect := by
    intro e cek iv aad pt
    simp [sampleSuite, sampleCencrypt, sampleCdecrypt]
  cencSound := by
    intro e cek iv aad ct tg pt h
    simp only [sampleSuite, sampleCdecrypt] at h
    split at h
    · next heq =>
      obtain rfl : ct = pt := by simpa using h
      simp [sampleSuite, sampleCencrypt, heq]
    · exact absurd h (by simp)
  tagBinds := by
    intro e e' cek cek' iv iv' aad aad' pt pt' h
    simp only [sampleSuite, sampleCencrypt] at h ⊢
    obtain ⟨he, hiv, haad, hpt⟩ := mkTag_inj e e' iv iv' aad aad' pt pt' h
    exact ⟨he, hiv, haad, hpt⟩
  ctInj := by
    intro e cek iv aad p p' h
    simpa [sampleSuite, sampleCencrypt] using h
  zipRT := fun _ => rfl

theorem getPair_setPair_self (cs : List (String × JsonValue)) (n : String) (v : JsonValue) :
    getPair (setPair cs n v) n = some v := by
  induction cs with
  | nil => simp [setPair, getPair]
  | cons kv rest ih =>
    obtain ⟨k, w⟩ := kv
    by_cases hk : k = n
    · subst hk
      simp [setPair, getPair]
    · simp [setPair, getPair, hk, ih]

theorem getPair_setPair_other (cs : List (String × JsonValue)) (n m : String) (v : JsonValue)
    (hnm : m ≠ n) : getPair (setPair cs n v) m = getPair cs m := by
  induction cs with
  | nil => simp [setPair, getPair, Ne.symm hnm]
  | cons kv rest ih =>
    obtain ⟨k, w⟩ := kv
    by_cases hk : k = n
    · subst hk
      simp [setPair, getPair, Ne.symm hnm]
    · by_cases hkm : k = m
      · subst hkm
        simp [setPair, getPair, hk]
      · simp [setPair, getPair, hk, hkm, ih]

theorem getClaim_setClaim_self (h : JweHeader) (n : String) (v : JsonValue) :
    (h.setClaim n v).getClaim n = some v :=
  getPair_setPair_self h.claims n v

theorem getClaim_setClaim_other (h : JweHeader) (n m : String) (v : JsonValue) (hnm : m ≠ n) :
    (h.setClaim n v).getClaim m = h.getClaim m :=
  getPair_setPair_other h.claims n m v hnm

theorem getClaim_applyAdds (h : JweHeader) (adds : List (String × JsonValue)) (m : String)
    (hm : ∀ kv ∈ adds, kv.1 ≠ m) : (applyAdds h adds).getClaim m = h.getClaim m := by
  induction adds generalizing h with
  | nil => rfl
  | cons kv rest ih =>
    simp only [applyAdds, List.foldl_cons] at ih ⊢
    rw [ih _ (fun kv' hkv' => hm kv' (List.mem_cons_of_mem _ hkv'))]
    exact getClaim_setClaim_other h kv.1 m kv.2 (Ne.symm (hm kv (List.mem_cons_self _ _)))

theorem encOfName_name (ce : ContentEncType) : encOfName ce.name = some ce := by
  cases ce <;> rfl

theorem splitDots_nodot (l : List Char) (h : '.' ∉ l) : splitDots l = [l] := by
  induction l with
  | nil => rfl
  | cons c cs ih =>
    have hc : ¬(c = '.') := fun heq => h (by simp [heq])
    have hcs : '.' ∉ cs := fun hm => h (List.mem_cons_of_mem _ hm)
    simp [splitDots, hc, ih hcs]

theorem splitDots_append (a b : List Char) (h : '.' ∉ a) :
    splitDots (a ++ '.' :: b) = a :: splitDots b := by
  induction a with
  | nil => simp [splitDots]
  | cons c cs ih =>
    have hc : ¬(c = '.') := fun heq => h (by simp [heq])
    have hcs : '.' ∉ cs := fun hm => h (List.mem_cons_of_mem _ hm)
    simp [splitDots, hc, ih hcs]

theorem mkCompact_data (S : JweSuite) (pB ek iv ct tg : Bytes) :
    (mkCompact S pB ek iv ct tg).data =
      S.segEnc pB ++ '.' :: (S.segEnc ek ++ '.' :: (S.segEnc iv ++ '.' ::
        (S.segEnc ct ++ '.' :: S.segEnc tg))) := by
  simp [mkCompact, List.intercalate, List.intersperse]

theorem splitDots_mkCompact (S : JweSuite) (hG : GoodSuite S) (pB ek iv ct tg : Bytes) :
    splitDots (mkCompact S pB ek iv ct tg).data =
      [S.segEnc pB, S.segEnc ek, S.segEnc iv, S.segEnc ct, S.segEnc tg] := by
  rw [mkCompact_data, splitDots_append _ _ (hG.segNoDot pB),
    splitDots_append _ _ (hG.segNoDot ek), splitDots_append _ _ (hG.segNoDot iv),
    splitDots_append _ _ (hG.segNoDot ct), splitDots_nodot _ (hG.segNoDot tg)]

theorem wkRec (wk : Option Bytes) (hwk : wk ≠ some []) :
    (if (wk.getD []).isEmpty then none else some (wk.getD [])) = wk := by
  cases wk with
  | none => simp
  | some b =>
    cases b with
    | nil => exact absurd rfl hwk
    | cons x xs => simp

theorem getPair_append (a b : List (String × JsonValue)) (n : String) :
    getPair (a ++ b) n =
      match getPair a n with
      | some v => some v
      | none => getPair b n := by
  induction a with
  | nil => simp [getPair]
  | cons kv rest ih =>
    obtain ⟨k, w⟩ := kv
    by_cases hk : k = n
    · subst hk
      simp [getPair]
    · simp [getPair, hk, ih]

theorem resolveEnc_congr (h h' : JweHeader) (he : h'.getClaim "enc" = h.getClaim "enc") :
    resolveEnc h' = resolveEnc h := by
  simp [resolveEnc, he]

theorem zipMode_congr (h h' : JweHeader) (he : h'.getClaim "zip" = h.getClaim "zip") :
    zipMode h' = zipMode h := by
  simp [zipMode, he]

theorem serializeCompactCore_eq (S : JweSuite) (rng : Nat → Bytes) (payload : Bytes)
    (header : JweHeader) (E : JweEncrypter) (ce : ContentEncType) (dz : Bool)
    (cek : Bytes) (wk : Option Bytes) (adds : List (String × JsonValue))
    (hres : resolveEnc header = .ok ce)
    (hzip : zipMode header = .ok dz)
    (henc : E.encrypt ce.keyLen = .ok (cek, wk, adds)) :
    serializeCompactCore S rng payload header E =
      .ok (mkCompact S (S.headerEnc (applyAdds (header.setClaim "alg" (.jstr E.algName)) adds))
        (wk.getD []) (rng ce.ivLen)
        (S.cencrypt ce cek (rng ce.ivLen)
          (compactAad S (S.headerEnc (applyAdds (header.setClaim "alg" (.jstr E.algName)) adds)))
          (if dz then S.compressFn payload else payload)).1
        (S.cencrypt ce cek (rng ce.ivLen)
          (compactAad S (S.headerEnc (applyAdds (header.setClaim "alg" (.jstr E.algName)) adds)))
          (if dz then S.compressFn payload else payload)).2) := by
  simp [serializeCompactCore, hres, hzip, henc, bind, Except.bind]

theorem deserializeParts_ok (S : JweSuite) (pB : Bytes) (eff : JweHeader)
    (wk : Option Bytes) (iv ct tg : Bytes) (extra : Option Bytes) (D : JweDecrypter)
    (ce : ContentEncType) (dz : Bool) (cek pt payload : Bytes)
    (halg : checkAlg eff D = .ok ())
    (hres : resolveEnc eff = .ok ce)
    (hzip : zipMode eff = .ok dz)
    (hdec : D.decrypt wk ce.keyLen = .ok cek)
    (hcd : S.cdecrypt ce cek iv (mkAad S pB extra) ct tg = some pt)
    (hunzip : (if dz then S.decompressFn pt else some pt) = some payload) :
    deserializeParts S pB eff wk iv ct tg extra D = .ok (payload, eff) := by
  cases dz with
  | false =>
    obtain rfl : pt = payload := by simpa using hunzip
    simp [deserializeParts, halg, hres, hzip, hdec, hcd, bind, Except.bind, optE]
  | true =>
    simp only [if_true] at hunzip
    simp [deserializeParts, halg, hres, hzip, hdec, hcd, hunzip, bind, Except.bind, optE]

theorem deserializeCompactSel_mkCompact (S : JweSuite) (hG : GoodSuite S)
    (h2 : JweHeader) (ekb iv ct tg : Bytes)
    (sel : JweHeader → Except JoseError (Option JweDecrypter)) :
    deserializeCompactSel S (mkCompact S (S.headerEnc h2) ekb iv ct tg) sel =
      match sel h2 with
      | .ok (some d) =>
        deserializeParts S (S.headerEnc h2) h2 (if ekb.isEmpty then none else some ekb)
          iv ct tg none d
      | .ok none => .error .noApplicableAlgorithm
      | .error e => .error e := by
  cases hsel : sel h2 with
  | ok od =>
    cases od with
    | some d =>
      simp [deserializeCompactSel, splitDots_mkCompact S hG, hG.segRT, hG.headerRT, optE,
        bind, Except.bind, hsel]
    | none =>
      simp [deserializeCompactSel, splitDots_mkCompact S hG, hG.segRT, hG.headerRT, optE,
        bind, Except.bind, hsel]
  | error e =>
    simp [deserializeCompactSel, splitDots_mkCompact S hG, hG.segRT, hG.headerRT, optE,
      bind, Except.bind, hsel]

theorem mergeViews_ok_eq (p : JweHeader) (u r : Option JweHeader) (m : JweHeader)
    (h : mergeViews p u r = .ok m) :
    m = ⟨p.claims ++ (u.getD ⟨[]⟩).claims ++ (r.getD ⟨[]⟩).claims⟩ := by
  simp only [mergeViews] at h
  split at h
  · exact ((Except.ok.injEq _ _).mp h).symm
  · exact absurd h (by simp)

theorem getPair_merge (p : JweHeader) (u r : Option JweHeader) (m : JweHeader)
    (hm : mergeViews p u r = .ok m) (n : String) :
    m.getClaim n =
      match getPair p.claims n with
      | some v => some v
      | none => getPair ((u.getD ⟨[]⟩).claims ++ (r.getD ⟨[]⟩).claims) n := by
  rw [mergeViews_ok_eq p u r m hm]
  show getPair _ n = _
  rw [List.append_assoc, getPair_append]

theorem serializeFlattenedCore_eq (S : JweSuite) (rng : Nat → Bytes) (payload : Bytes)
    (prot unprot recip : Option JweHeader) (aad : Option Bytes) (E : JweEncrypter)
    (ce : ContentEncType) (dz : Bool) (cek : Bytes) (wk : Option Bytes)
    (adds : List (String × JsonValue)) (merged0 merged1 : JweHeader)
    (hm0 : mergeViews (prot.getD ⟨[]⟩) unprot recip = .ok merged0)
    (hres : resolveEnc merged0 = .ok ce)
    (hzip : zipMode merged0 = .ok dz)
    (henc : E.encrypt ce.keyLen = .ok (cek, wk, adds))
    (hm1 : mergeViews (applyAdds ((prot.getD ⟨[]⟩).setClaim "alg" (.jstr E.algName)) adds)
      unprot recip = .ok merged1) :
    serializeFlattenedCore S rng payload prot unprot recip aad E =
      .ok ⟨S.msgEnc ⟨some (S.headerEnc (applyAdds ((prot.getD ⟨[]⟩).setClaim "alg"
          (.jstr E.algName)) adds)), unprot, recip, wk, rng ce.ivLen,
        (S.cencrypt ce cek (rng ce.ivLen)
          (mkAad S (S.headerEnc (applyAdds ((prot.getD ⟨[]⟩).setClaim "alg"
            (.jstr E.algName)) adds)) aad)
          (if dz then S.compressFn payload else payload)).1,
        (S.cencrypt ce cek (rng ce.ivLen)
          (mkAad S (S.headerEnc (applyAdds ((prot.getD ⟨[]⟩).setClaim "alg"
            (.jstr E.algName)) adds)) aad)
          (if dz then S.compressFn payload else payload)).2, aad⟩⟩ := by
  simp [serializeFlattenedCore, hm0, hres, hzip, henc, hm1, bind, Except.bind]

theorem deserializeJsonSel_mk (S : JweSuite) (hG : GoodSuite S) (p1 : JweHeader)
    (unprot recip : Option JweHeader) (wk : Option Bytes) (iv ct tg : Bytes)
    (aad : Option Bytes) (merged1 : JweHeader)
    (sel : JweHeader → Except JoseError (Option JweDecrypter))
    (hm1 : mergeViews p1 unprot recip = .ok merged1) :
    deserializeJsonSel S ⟨S.msgEnc ⟨some (S.headerEnc p1), unprot, recip, wk, iv, ct, tg, aad⟩⟩ sel =
      match sel merged1 with
      | .ok (some d) => deserializeParts S (S.headerEnc p1) merged1 wk iv ct tg aad d
      | .ok none => .error .noApplicableAlgorithm
      | .error e => .error e := by
  cases hsel : sel merged1 with
  | ok od =>
    cases od with
    | some d =>
      simp [deserializeJsonSel, hG.msgRT, hG.headerRT, hm1, hsel, optE, bind, Except.bind]
    | none =>
      simp [deserializeJsonSel, hG.msgRT, hG.headerRT, hm1, hsel, optE, bind, Except.bind]
  | error e =>
    simp [deserializeJsonSel, hG.msgRT, hG.headerRT, hm1, hsel, optE, bind, Except.bind]

theorem checkAlg_ok (eff : JweHeader) (D : JweDecrypter) (a : String)
    (hget : eff.getClaim "alg" = some (.jstr a)) (ha : a = D.algName) :
    checkAlg eff D = .ok () := by
  simp [checkAlg, hget, ha]

theorem h2_alg (header : JweHeader) (name : String) (adds : List (String × JsonValue))
    (hadds : ∀ kv ∈ adds, kv.1 ≠ "alg") :
    (applyAdds (header.setClaim "alg" (.jstr name)) adds).getClaim "alg" = some (.jstr name) := by
  rw [getClaim_applyAdds _ _ _ hadds, getClaim_setClaim_self]

theorem h2_other (header : JweHeader) (v : JsonValue) (m : String)
    (adds : List (String × JsonValue)) (hm : m ≠ "alg")
    (hadds : ∀ kv ∈ adds, kv.1 ≠ m) :
    (applyAdds (header.setClaim "alg" v) adds).getClaim m = header.getClaim m := by
  rw [getClaim_applyAdds _ _ _ hadds, getClaim_setClaim_other _ _ _ _ hm]

theorem getClaim_merge_left (p : JweHeader) (u r : Option JweHeader) (m : JweHeader)
    (n : String) (v : JsonValue) (hm : mergeViews p u r = .ok m)
    (hp : p.getClaim n = some v) : m.getClaim n = some v := by
  rw [getPair_merge p u r m hm n]
  simp only [JweHeader.getClaim] at hp
  simp [hp]

theorem getClaim_merge_congr (p p' : JweHeader) (u r : Option JweHeader) (m m' : JweHeader)
    (n : String) (hm : mergeViews p u r = .ok m) (hm' : mergeViews p' u r = .ok m')
    (hp : p'.getClaim n = p.getClaim n) : m'.getClaim n = m.getClaim n := by
  rw [getPair_merge p u r m hm n, getPair_merge p' u r m' hm' n]
  simp only [JweHeader.getClaim] at hp
  rw [hp]

theorem charToNat_inj_list : ∀ l1 l2 : List Char, l1.map Char.toNat = l2.map Char.toNat → l1 = l2 := by
  intro l1
  induction l1 with
  | nil =>
    intro l2 h
    cases l2 with
    | nil => rfl
    | cons d ds => simp at h
  | cons c cs ih =>
    intro l2 h
    cases l2 with
    | nil => simp at h
    | cons d ds =>
      simp only [List.map_cons, List.cons.injEq] at h
      obtain ⟨h1, h2⟩ := h
      have hc : c = d := by
        rw [← Char.ofNat_toNat c, h1, Char.ofNat_toNat]
      rw [hc, ih ds h2]

theorem segEnc_inj (S : JweSuite) (hG : GoodSuite S) (a b : Bytes)
    (h : S.segEnc a = S.segEnc b) : a = b := by
  have ha := hG.segRT a
  rw [h, hG.segRT b] at ha
  exact ((Option.some.injEq _ _).mp ha).symm

theorem compactAad_inj (S : JweSuite) (hG : GoodSuite S) (a b : Bytes)
    (h : compactAad S a = compactAad S b) : a = b :=
  segEnc_inj S hG a b (charToNat_inj_list _ _ h)

theorem mkAad_ne_of_pB_ne (S : JweSuite) (hG : GoodSuite S) (pB' pB : Bytes)
    (extra : Option Bytes) (h : pB' ≠ pB) : mkAad S pB' extra ≠ mkAad S pB extra := by
  cases extra with
  | none => exact fun he => h (compactAad_inj S hG pB' pB he)
  | some a =>
    intro he
    simp only [mkAad] at he
    exact h (compactAad_inj S hG pB' pB (List.append_cancel_right he))

theorem mkAad_some_ne (S : JweSuite) (hG : GoodSuite S) (pB a1 a2 : Bytes)
    (h : a2 ≠ a1) : mkAad S pB (some a2) ≠ mkAad S pB (some a1) := by
  intro he
  simp only [mkAad] at he
  have h1 := List.append_cancel_left he
  simp only [List.cons.injEq, true_and] at h1
  exact h (segEnc_inj S hG a2 a1 (charToNat_inj_list _ _ h1))

theorem flipByte_ne (b k : Nat) : flipByte b k ≠ b := by
  unfold flipByte
  intro h
  have h1 : b ^^^ 1 <<< k ^^^ b = b ^^^ b := by rw [h]
  rw [Nat.xor_comm b (1 <<< k), Nat.xor_assoc, Nat.xor_self, Nat.xor_zero] at h1
  rw [Nat.shiftLeft_eq, one_mul] at h1
  have := Nat.two_pow_pos k
  omega

theorem set_ne (bs : Bytes) (i x : Nat) (hi : i < bs.length) (hx : x ≠ bs.getD i 0) :
    bs.set i x ≠ bs := by
  induction bs generalizing i with
  | nil => simp at hi
  | cons b rest ih =>
    cases i with
    | zero =>
      intro h
      injection h with h1 _
      exact hx (by simpa using h1)
    | succ j =>
      intro h
      injection h with _ h2
      exact ih j (by simpa using hi) (by simpa using hx) h2

theorem flipBit_ne (bs : Bytes) (i k : Nat) (hi : i < bs.length) : flipBit bs i k ≠ bs :=
  set_ne bs i _ hi (flipByte_ne _ k)

theorem deserializeParts_fail_tuple (S : JweSuite) (hG : GoodSuite S) (pB : Bytes)
    (eff : JweHeader) (wk : Option Bytes) (iv ct : Bytes) (extra : Option Bytes)
    (D : JweDecrypter) (ce ce0 : ContentEncType) (dz : Bool) (cek0 iv0 aad0 pt0 : Bytes)
    (halg : checkAlg eff D = .ok ())
    (hres : resolveEnc eff = .ok ce)
    (hzip : zipMode eff = .ok dz)
    (hdiff : ¬(ce = ce0 ∧ iv = iv0 ∧ mkAad S pB extra = aad0 ∧
      ct = (S.cencrypt ce0 cek0 iv0 aad0 pt0).1)) :
    deserializeParts S pB eff wk iv ct (S.cencrypt ce0 cek0 iv0 aad0 pt0).2 extra D =
      .error .decryptionFailed := by
  cases hd : D.decrypt wk ce.keyLen with
  | error e => simp [deserializeParts, halg, hres, hzip, hd, bind, Except.bind, optE]
  | ok cek' =>
    cases hc : S.cdecrypt ce cek' iv (mkAad S pB extra) ct (S.cencrypt ce0 cek0 iv0 aad0 pt0).2 with
    | none => simp [deserializeParts, halg, hres, hzip, hd, hc, bind, Except.bind, optE]
    | some p' =>
      exfalso
      have hs := hG.cencSound ce cek' iv (mkAad S pB extra) ct
        (S.cencrypt ce0 cek0 iv0 aad0 pt0).2 p' hc
      have htag : (S.cencrypt ce cek' iv (mkAad S pB extra) p').2 =
          (S.cencrypt ce0 cek0 iv0 aad0 pt0).2 := by rw [hs]
      obtain ⟨hce, hiv, haad, hct⟩ :=
        hG.tagBinds ce ce0 cek' cek0 iv iv0 (mkAad S pB extra) aad0 p' pt0 htag
      apply hdiff
      refine ⟨hce, hiv, haad, ?_⟩
      have hfst : (S.cencrypt ce cek' iv (mkAad S pB extra) p').1 = ct := by rw [hs]
      rw [← hfst, hct]

theorem deserializeParts_fail_tag (S : JweSuite) (hG : GoodSuite S) (pB : Bytes)
    (eff : JweHeader) (wk : Option Bytes) (iv tg : Bytes) (extra : Option Bytes)
    (D : JweDecrypter) (ce : ContentEncType) (dz : Bool) (cek0 pt0 : Bytes)
    (halg : checkAlg eff D = .ok ())
    (hres : resolveEnc eff = .ok ce)
    (hzip : zipMode eff = .ok dz)
    (hdec : D.decrypt wk ce.keyLen = .ok cek0)
    (htg : tg ≠ (S.cencrypt ce cek0 iv (mkAad S pB extra) pt0).2) :
    deserializeParts S pB eff wk iv (S.cencrypt ce cek0 iv (mkAad S pB extra) pt0).1 tg extra D =
      .error .decryptionFailed := by
  cases hc : S.cdecrypt ce cek0 iv (mkAad S pB extra)
      (S.cencrypt ce cek0 iv (mkAad S pB extra) pt0).1 tg with
  | none => simp [deserializeParts, halg, hres, hzip, hdec, hc, bind, Except.bind, optE]
  | some p' =>
    exfalso
    have hs := hG.cencSound ce cek0 iv (mkAad S pB extra)
      (S.cencrypt ce cek0 iv (mkAad S pB extra) pt0).1 tg p' hc
    have hfst : (S.cencrypt ce cek0 iv (mkAad S pB extra) p').1 =
        (S.cencrypt ce cek0 iv (mkAad S pB extra) pt0).1 := by rw [hs]
    have hp : p' = pt0 := hG.ctInj ce cek0 iv (mkAad S pB extra) p' pt0 hfst
    rw [hp] at hs
    exact htg (congrArg Prod.snd hs).symm

theorem h2_checkAlg (header : JweHeader) (E : JweEncrypter) (D : JweDecrypter)
    (adds : List (String × JsonValue)) (hadds : ∀ kv ∈ adds, kv.1 ≠ "alg")
    (halgD : D.algName = E.algName) :
    checkAlg (applyAdds (header.setClaim "alg" (.jstr E.algName)) adds) D = .ok () :=
  checkAlg_ok _ _ _ (h2_alg header E.algName adds hadds) halgD.symm

theorem h2_resolveEnc (header : JweHeader) (E : JweEncrypter)
    (adds : List (String × JsonValue)) (ce : ContentEncType)
    (hadds : ∀ kv ∈ adds, kv.1 ≠ "enc") (hres : resolveEnc header = .ok ce) :
    resolveEnc (applyAdds (header.setClaim "alg" (.jstr E.algName)) adds) = .ok ce := by
  rw [resolveEnc_congr header _ (h2_other header _ "enc" adds (by decide) hadds)]
  exact hres

theorem h2_zipMode (header : JweHeader) (E : JweEncrypter)
    (adds : List (String × JsonValue)) (dz : Bool)
    (hadds : ∀ kv ∈ adds, kv.1 ≠ "zip") (hzip : zipMode header = .ok dz) :
    zipMode (applyAdds (header.setClaim "alg" (.jstr E.algName)) adds) = .ok dz := by
  rw [zipMode_congr header _ (h2_other header _ "zip" adds (by decide) hadds)]
  exact hzip

theorem getPair_some_key_mem (a : List (String × JsonValue)) (n : String) (v : JsonValue)
    (h : getPair a n = some v) : ∃ w, (n, w) ∈ a := by
  induction a with
  | nil => simp [getPair] at h
  | cons kv rest ih =>
    obtain ⟨k, w⟩ := kv
    by_cases hk : k = n
    · subst hk
      exact ⟨w, List.mem_cons_self _ _⟩
    · simp only [getPair, if_neg hk] at h
      obtain ⟨w', hw'⟩ := ih h
      exact ⟨w', List.mem_cons_of_mem _ hw'⟩

theorem disjNames_false (a b : List (String × JsonValue)) (n : String) (v w : JsonValue)
    (ha : getPair a n = some v) (hb : getPair b n = some w) : disjNames a b = false := by
  obtain ⟨va, hma⟩ := getPair_some_key_mem a n v ha
  obtain ⟨vb, hmb⟩ := getPair_some_key_mem b n w hb
  refine List.all_eq_false.mpr ⟨(n, va), hma, ?_⟩
  have hany : (b.any fun kv2 => kv2.1 = n) = true :=
    List.any_eq_true.mpr ⟨(n, vb), hmb, by simp⟩
  simp [hany]

theorem merged1_props (prot unprot recip : Option JweHeader) (E : JweEncrypter)
    (D : JweDecrypter) (adds : List (String × JsonValue)) (ce : ContentEncType) (dz : Bool)
    (merged0 merged1 : JweHeader)
    (hm0 : mergeViews (prot.getD ⟨[]⟩) unprot recip = .ok merged0)
    (hres : resolveEnc merged0 = .ok ce)
    (hzip : zipMode merged0 = .ok dz)
    (hadds : ∀ kv ∈ adds, kv.1 ≠ "alg" ∧ kv.1 ≠ "enc" ∧ kv.1 ≠ "zip")
    (halgD : D.algName = E.algName)
    (hm1 : mergeViews (applyAdds ((prot.getD ⟨[]⟩).setClaim "alg" (.jstr E.algName)) adds)
      unprot recip = .ok merged1) :
    checkAlg merged1 D = .ok () ∧ resolveEnc merged1 = .ok ce ∧ zipMode merged1 = .ok dz := by
  have halg1 : merged1.getClaim "alg" = some (.jstr E.algName) :=
    getClaim_merge_left _ unprot recip merged1 "alg" _ hm1
      (h2_alg _ _ adds (fun kv hkv => (hadds kv hkv).1))
  have henc1 : merged1.getClaim "enc" = merged0.getClaim "enc" :=
    getClaim_merge_congr (prot.getD ⟨[]⟩) _ unprot recip merged0 merged1 "enc" hm0 hm1
      (h2_other _ _ "enc" adds (by decide) (fun kv hkv => (hadds kv hkv).2.1))
  have hzip1 : merged1.getClaim "zip" = merged0.getClaim "zip" :=
    getClaim_merge_congr (prot.getD ⟨[]⟩) _ unprot recip merged0 merged1 "zip" hm0 hm1
      (h2_other _ _ "zip" adds (by decide) (fun kv hkv => (hadds kv hkv).2.2))
  refine ⟨checkAlg_ok merged1 D E.algName halg1 halgD.symm, ?_, ?_⟩
  · rw [resolveEnc_congr merged0 merged1 henc1]
    exact hres
  · rw [zipMode_congr merged0 merged1 hzip1]
    exact hzip

/-- C2: encrypting the payload `"test payload!"` with key-management
algorithm Direct and content-encryption `A256GCM` under a 32-byte key
produces a compact serialization of exactly 5 dot-separated segments whose
2nd (encrypted-key) segment is empty, and decrypting that output with the
same key returns `"test payload!"` together with a merged header containing
`alg = "dir"` and `enc = "A256GCM"`. -/
theorem c2_direct_a256gcm_scenario :
    serialize_compact sampleSuite sampleRng testPayload testHeaderA256 dirEnc32 =
      .ok ex256Wire ∧
    (splitDots ex256Wire.data).length = 5 ∧
    (splitDots ex256Wire.data).getD 1 ['x'] = [] ∧
    deserialize_compact sampleSuite ex256Wire dirDec32 = .ok (testPayload, ex256H2) ∧
    ex256H2.getClaim "alg" = some (.jstr "dir") ∧
    ex256H2.getClaim "enc" = some (.jstr "A256GCM") :=
  ⟨rfl, rfl, rfl, rfl, rfl, rfl⟩

/-- C8: every module-level JWE operation returns the same result as the
corresponding method invoked on a `JweContext` constructed with
`JweContext.new`; the shared default context is a once-constructed,
read-only value. -/
theorem c8_module_equals_default_context :
    (∀ S rng payload header enc, serialize_compact S rng payload header enc =
      JweContext.new.serialize_compact S rng payload header enc) ∧
    (∀ S rng payload header sel, serialize_compact_with_selector S rng payload header sel =
      JweContext.new.serialize_compact_with_selector S rng payload header sel) ∧
    (∀ S rng payload prot unprot recip aad enc,
      serialize_flattened_json S rng payload prot unprot recip aad enc =
        JweContext.new.serialize_flattened_json S rng payload prot unprot recip aad enc) ∧
    (∀ S rng payload prot unprot recip aad sel,
      serialize_flattened_json_with_selector S rng payload prot unprot recip aad sel =
        JweContext.new.serialize_flattened_json_with_selector S rng payload prot unprot
          recip aad sel) ∧
    (∀ S input dec, deserialize_compact S input dec =
      JweContext.new.deserialize_compact S input dec) ∧
    (∀ S input sel, deserialize_compact_with_selector S input sel =
      JweContext.new.deserialize_compact_with_selector S input sel) ∧
    (∀ S input dec, deserialize_json S input dec =
      JweContext.new.deserialize_json S input dec) ∧
    (∀ S input sel, deserialize_json_with_selector S input sel =
      JweContext.new.deserialize_json_with_selector S input sel) :=
  ⟨fun _ _ _ _ _ => rfl, fun _ _ _ _ _ => rfl, fun _ _ _ _ _ _ _ _ => rfl,
    fun _ _ _ _ _ _ _ _ => rfl, fun _ _ _ => rfl, fun _ _ _ => rfl,
    fun _ _ _ => rfl, fun _ _ _ => rfl⟩

/-- C9: deserialization is deterministic — two invocations of the same
deserialize operation on the same serialized text with the same decrypter
return identical payload bytes and structurally equal headers. -/
theorem c9_parse_deterministic (S : JweSuite) (input inputJ : String) (D DJ : JweDecrypter)
    (p1 p2 q1 q2 : Bytes) (h1 h2 g1 g2 : JweHeader)
    (hc1 : deserialize_compact S input D = .ok (p1, h1))
    (hc2 : deserialize_compact S input D = .ok (p2, h2))
    (hj1 : deserialize_json S inputJ DJ = .ok (q1, g1))
    (hj2 : deserialize_json S inputJ DJ = .ok (q2, g2)) :
    (p1 = p2 ∧ h1 = h2) ∧ (q1 = q2 ∧ g1 = g2) := by
  rw [hc1] at hc2
  rw [hj1] at hj2
  simp only [Except.ok.injEq, Prod.mk.injEq] at hc2 hj2
  exact ⟨hc2, hj2⟩

/-- Witness for C9 at a concrete compact and flattened message of the
sample run. -/
theorem c9_parse_deterministic_witness :
    (testPayload = testPayload ∧ ex256H2 = ex256H2) ∧
    (testPayload = testPayload ∧ ex256H2 = ex256H2) :=
  c9_parse_deterministic sampleSuite ex256Wire exFlatWire dirDec32 dirDec32
    testPayload testPayload testPayload testPayload ex256H2 ex256H2 ex256H2 ex256H2
    rfl rfl rfl rfl

/-- C10: the selector interfaces are asymmetric — a serialization selector
returns an optional encrypter and can only decline (declining fails the
operation with the no-applicable-algorithm error, and a returned encrypter
is simply used), whereas a deserialization selector returns an
error-or-optional-decrypter and can additionally abort the whole operation
with its own error value, which is returned unchanged. -/
theorem c10_selector_asymmetry :
    (∀ S rng payload header sel, sel header = none →
      serialize_compact_with_selector S rng payload header sel =
        .error .noApplicableAlgorithm) ∧
    (∀ S rng payload (prot unprot recip : Option JweHeader) aad sel,
      sel (prot.getD ⟨[]⟩) = none →
      serialize_flattened_json_with_selector S rng payload prot unprot recip aad sel =
        .error .noApplicableAlgorithm) ∧
    (∀ S rng payload header sel E, sel header = some E →
      serialize_compact_with_selector S rng payload header sel =
        serializeCompactCore S rng payload header E) ∧
    (∀ S h2 ekb iv ct tg sel e, GoodSuite S → sel h2 = .error e →
      deserialize_compact_with_selector S (mkCompact S (S.headerEnc h2) ekb iv ct tg) sel =
        .error e) ∧
    (∀ S h2 ekb iv ct tg sel, GoodSuite S → sel h2 = .ok none →
      deserialize_compact_with_selector S (mkCompact S (S.headerEnc h2) ekb iv ct tg) sel =
        .error .noApplicableAlgorithm) ∧
    (∀ S p1 (unprot recip : Option JweHeader) wk iv ct tg aad merged1 sel e, GoodSuite S →
      mergeViews p1 unprot recip = .ok merged1 → sel merged1 = .error e →
      deserialize_json_with_selector S
        ⟨S.msgEnc ⟨some (S.headerEnc p1), unprot, recip, wk, iv, ct, tg, aad⟩⟩ sel =
        .error e) ∧
    (∀ S p1 (unprot recip : Option JweHeader) wk iv ct tg aad merged1 sel, GoodSuite S →
      mergeViews p1 unprot recip = .ok merged1 → sel merged1 = .ok none →
      deserialize_json_with_selector S
        ⟨S.msgEnc ⟨some (S.headerEnc p1), unprot, recip, wk, iv, ct, tg, aad⟩⟩ sel =
        .error .noApplicableAlgorithm) := by
  refine ⟨?_, ?_, ?_, ?_, ?_, ?_, ?_⟩
  · intro S rng payload header sel hsel
    simp [serialize_compact_with_selector, JweContext.serialize_compact_with_selector, hsel]
  · intro S rng payload prot unprot recip aad sel hsel
    simp [serialize_flattened_json_with_selector,
      JweContext.serialize_flattened_json_with_selector, hsel]
  · intro S rng payload header sel E hsel
    simp [serialize_compact_with_selector, JweContext.serialize_compact_with_selector, hsel]
  · intro S h2 ekb iv ct tg sel e hG hsel
    show deserializeCompactSel S _ sel = _
    rw [deserializeCompactSel_mkCompact S hG h2 ekb iv ct tg sel, hsel]
  · intro S h2 ekb iv ct tg sel hG hsel
    show deserializeCompactSel S _ sel = _
    rw [deserializeCompactSel_mkCompact S hG h2 ekb iv ct tg sel, hsel]
  · intro S p1 unprot recip wk iv ct tg aad merged1 sel e hG hm1 hsel
    show deserializeJsonSel S _ sel = _
    rw [deserializeJsonSel_mk S hG p1 unprot recip wk iv ct tg aad merged1 sel hm1, hsel]
  · intro S p1 unprot recip wk iv ct tg aad merged1 sel hG hm1 hsel
    show deserializeJsonSel S _ sel = _
    rw [deserializeJsonSel_mk S hG p1 unprot recip wk iv ct tg aad merged1 sel hm1, hsel]

/-- C5 (amended): for the Direct key-management algorithm the provided key
is used as the CEK itself, no wrapped-key segment and no header additions
are produced, and the required key length is fixed by the content-encryption
algorithm: 16/24/32 bytes for A128GCM/A192GCM/A256GCM and 32/40/48 bytes for
A128CBC-HS256/A192CBC-HS384/A256CBC-HS512 (the lengths the repository's own
test uses); encryption with a key of any other length fails as a key
mismatch. -/
theorem c5_direct_key_length (ce : ContentEncType) (key : Bytes) (E : JweEncrypter)
    (hE : DirectJweAlgorithm.Dir.encrypter_from_bytes key = .ok E) :
    E.algName = "dir" ∧
    (key.length = ce.keyLen → E.encrypt ce.keyLen = .ok (key, none, [])) ∧
    (key.length ≠ ce.keyLen → E.encrypt ce.keyLen = .error .keyMismatch) ∧
    ContentEncType.a128gcm.keyLen = 16 ∧ ContentEncType.a192gcm.keyLen = 24 ∧
    ContentEncType.a256gcm.keyLen = 32 ∧ ContentEncType.a128cbc_hs256.keyLen = 32 ∧
    ContentEncType.a192cbc_hs384.keyLen = 40 ∧ ContentEncType.a256cbc_hs512.keyLen = 48 := by
  simp only [DirectJweAlgorithm.encrypter_from_bytes, Except.ok.injEq] at hE
  subst hE
  refine ⟨rfl, ?_, ?_, rfl, rfl, rfl, rfl, rfl, rfl⟩
  · intro h
    simp [h]
  · intro h
    simp [h]

/-- Witness for C5 at the test's 40-byte `A192CBC-HS384` instance. -/
theorem c5_direct_key_length_witness :
    dirEnc40.algName = "dir" ∧
    (testKey40.length = ContentEncType.a192cbc_hs384.keyLen →
      dirEnc40.encrypt ContentEncType.a192cbc_hs384.keyLen = .ok (testKey40, none, [])) ∧
    (testKey40.length ≠ ContentEncType.a192cbc_hs384.keyLen →
      dirEnc40.encrypt ContentEncType.a192cbc_hs384.keyLen = .error .keyMismatch) ∧
    ContentEncType.a128gcm.keyLen = 16 ∧ ContentEncType.a192gcm.keyLen = 24 ∧
    ContentEncType.a256gcm.keyLen = 32 ∧ ContentEncType.a128cbc_hs256.keyLen = 32 ∧
    ContentEncType.a192cbc_hs384.keyLen = 40 ∧ ContentEncType.a256cbc_hs512.keyLen = 48 :=
  c5_direct_key_length .a192cbc_hs384 testKey40 dirEnc40 rfl

/-- Counterexample to C5 as stated: the claim's table demands 48 bytes for
A192CBC-HS384 and failure for any other length, but encryption under
A192CBC-HS384 succeeds with a 40-byte key — and fails with a 48-byte key —
following the repository test's key lengths. -/
theorem c5_counterexample :
    isOkE (serialize_compact sampleSuite sampleRng testPayload testHeaderA192cbc dirEnc40) =
      true ∧
    serialize_compact sampleSuite sampleRng testPayload testHeaderA192cbc dirEnc48 =
      .error .keyMismatch ∧
    testKey40.length = 40 ∧ testKey48.length = 48 :=
  ⟨rfl, rfl, rfl, rfl⟩

/-- C4: whenever the decrypt tail fails in a cryptographic sub-step — the
key-management decrypter failing to recover the CEK (for whatever internal
reason), or content decryption/tag verification failing — the error the
caller observes is the single opaque decryption-failed kind, so inputs
failing at different sub-steps are indistinguishable by error kind. -/
theorem c4_opaque_decryption_failure (S : JweSuite) (pB : Bytes) (eff : JweHeader)
    (wk : Option Bytes) (iv ct tg : Bytes) (extra : Option Bytes) (D : JweDecrypter)
    (ce : ContentEncType) (dz : Bool)
    (halg : checkAlg eff D = .ok ())
    (hres : resolveEnc eff = .ok ce)
    (hzip : zipMode eff = .ok dz) :
    (∀ e, D.decrypt wk ce.keyLen = .error e →
      deserializeParts S pB eff wk iv ct tg extra D = .error .decryptionFailed) ∧
    (∀ cek, D.decrypt wk ce.keyLen = .ok cek →
      S.cdecrypt ce cek iv (mkAad S pB extra) ct tg = none →
      deserializeParts S pB eff wk iv ct tg extra D = .error .decryptionFailed) := by
  constructor
  · intro e he
    simp [deserializeParts, halg, hres, hzip, he, bind, Except.bind, optE]
  · intro cek hc hn
    simp [deserializeParts, halg, hres, hzip, hc, hn, bind, Except.bind, optE]

/-- Witness for C4 at the concrete sample run with a 16-byte (mismatched)
Direct decrypter. -/
theorem c4_opaque_decryption_failure_witness :
    (∀ e, dirDec16.decrypt none ContentEncType.a256gcm.keyLen = .error e →
      deserializeParts sampleSuite ex256PB ex256H2 none ex256Iv ex256Ctg.1 ex256Ctg.2 none
        dirDec16 = .error .decryptionFailed) ∧
    (∀ cek, dirDec16.decrypt none ContentEncType.a256gcm.keyLen = .ok cek →
      sampleSuite.cdecrypt .a256gcm cek ex256Iv (mkAad sampleSuite ex256PB none) ex256Ctg.1
        ex256Ctg.2 = none →
      deserializeParts sampleSuite ex256PB ex256H2 none ex256Iv ex256Ctg.1 ex256Ctg.2 none
        dirDec16 = .error .decryptionFailed) :=
  c4_opaque_decryption_failure sampleSuite ex256PB ex256H2 none ex256Iv ex256Ctg.1
    ex256Ctg.2 none dirDec16 .a256gcm false rfl rfl rfl

/-- C7: constructing a flattened message in which the same claim name
appears in more than one of the protected, shared-unprotected and
per-recipient header views fails at build time: the header merge reports a
header conflict and serialization returns that error, so no such message is
ever produced for parse time to reject. -/
theorem c7_header_conflict (S : JweSuite) (rng : Nat → Bytes) (payload : Bytes)
    (prot unprot recip : Option JweHeader) (aad : Option Bytes) (E : JweEncrypter)
    (n : String) (v1 v2 : JsonValue)
    (hcol :
      (getPair (prot.getD ⟨[]⟩).claims n = some v1 ∧
        getPair (unprot.getD ⟨[]⟩).claims n = some v2) ∨
      (getPair (prot.getD ⟨[]⟩).claims n = some v1 ∧
        getPair (recip.getD ⟨[]⟩).claims n = some v2) ∨
      (getPair (unprot.getD ⟨[]⟩).claims n = some v1 ∧
        getPair (recip.getD ⟨[]⟩).claims n = some v2)) :
    mergeViews (prot.getD ⟨[]⟩) unprot recip = .error .headerConflict ∧
    serialize_flattened_json S rng payload prot unprot recip aad E =
      .error .headerConflict := by
  have hmv : mergeViews (prot.getD ⟨[]⟩) unprot recip = .error .headerConflict := by
    rcases hcol with ⟨h1, h2⟩ | ⟨h1, h2⟩ | ⟨h1, h2⟩
    · have hd := disjNames_false _ _ n v1 v2 h1 h2
      simp [mergeViews, hd]
    · have hd := disjNames_false _ _ n v1 v2 h1 h2
      simp [mergeViews, hd]
    · have hd := disjNames_false _ _ n v1 v2 h1 h2
      simp [mergeViews, hd]
  refine ⟨hmv, ?_⟩
  simp [serialize_flattened_json, JweContext.serialize_flattened_json,
    JweContext.serialize_flattened_json_with_selector, serializeFlattenedCore, hmv,
    bind, Except.bind]

/-- Witness for C7 at a concrete `kid` collision between the protected and
shared-unprotected views. -/
theorem c7_header_conflict_witness :
    mergeViews ((some (⟨[("kid", JsonValue.jstr "a")]⟩ : JweHeader)).getD ⟨[]⟩)
      (some ⟨[("kid", JsonValue.jstr "b")]⟩) none = .error .headerConflict ∧
    serialize_flattened_json sampleSuite sampleRng testPayload
      (some ⟨[("kid", JsonValue.jstr "a")]⟩) (some ⟨[("kid", JsonValue.jstr "b")]⟩) none
      none dirEnc32 = .error .headerConflict :=
  c7_header_conflict sampleSuite sampleRng testPayload (some ⟨[("kid", .jstr "a")]⟩)
    (some ⟨[("kid", .jstr "b")]⟩) none none dirEnc32 "kid" (.jstr "a") (.jstr "b")
    (Or.inl ⟨rfl, rfl⟩)

/-- C1 (amended): for a matching encrypter/decrypter pair, deserializing the
serialized encryption returns exactly the original payload bytes together
with the original header carrying the succeeding algorithm's `alg` claim
asserted and every header claim the key-management algorithm contributed
during encryption (none for Direct) — for the compact shape and the
flattened JSON shape (where the returned header is the merge of the views
after that assertion). -/
theorem c1_roundtrip (S : JweSuite) (rng : Nat → Bytes) (payload : Bytes)
    (E : JweEncrypter) (D : JweDecrypter)
    (ce cef : ContentEncType) (dz dzf : Bool)
    (cek cekf : Bytes) (wk wkf : Option Bytes) (adds addsf : List (String × JsonValue))
    (header : JweHeader) (prot unprot recip : Option JweHeader) (aad : Option Bytes)
    (merged0 merged1 : JweHeader)
    (hG : GoodSuite S)
    (halgD : D.algName = E.algName)
    (hres : resolveEnc header = .ok ce)
    (hzip : zipMode header = .ok dz)
    (henc : E.encrypt ce.keyLen = .ok (cek, wk, adds))
    (hadds : ∀ kv ∈ adds, kv.1 ≠ "alg" ∧ kv.1 ≠ "enc" ∧ kv.1 ≠ "zip")
    (hdec : D.decrypt wk ce.keyLen = .ok cek)
    (hwk : wk ≠ some [])
    (hm0 : mergeViews (prot.getD ⟨[]⟩) unprot recip = .ok merged0)
    (hresf : resolveEnc merged0 = .ok cef)
    (hzipf : zipMode merged0 = .ok dzf)
    (hencf : E.encrypt cef.keyLen = .ok (cekf, wkf, addsf))
    (haddsf : ∀ kv ∈ addsf, kv.1 ≠ "alg" ∧ kv.1 ≠ "enc" ∧ kv.1 ≠ "zip")
    (hdecf : D.decrypt wkf cef.keyLen = .ok cekf)
    (hm1 : mergeViews (applyAdds ((prot.getD ⟨[]⟩).setClaim "alg" (.jstr E.algName)) addsf)
      unprot recip = .ok merged1) :
    ((serialize_compact S rng payload header E).bind fun s =>
      deserialize_compact S s D) =
      .ok (payload, applyAdds (header.setClaim "alg" (.jstr E.algName)) adds) ∧
    ((serialize_flattened_json S rng payload prot unprot recip aad E).bind fun s =>
      deserialize_json S s D) = .ok (payload, merged1) := by
  constructor
  · have hserC : serialize_compact S rng payload header E =
        serializeCompactCore S rng payload header E := rfl
    have hser := serializeCompactCore_eq S rng payload header E ce dz cek wk adds
      hres hzip henc
    rw [hserC, hser]
    show deserialize_compact S _ D = _
    have hdesC : ∀ s, deserialize_compact S s D =
        deserializeCompactSel S s (fun _ => .ok (some D)) := fun _ => rfl
    rw [hdesC, deserializeCompactSel_mkCompact S hG _ (wk.getD []) _ _ _ _]
    show deserializeParts S _ _ _ _ _ _ _ D = _
    rw [wkRec wk hwk]
    exact deserializeParts_ok S _ _ wk _ _ _ none D ce dz cek
      (if dz then S.compressFn payload else payload) payload
      (h2_checkAlg header E D adds (fun kv hkv => (hadds kv hkv).1) halgD)
      (h2_resolveEnc header E adds ce (fun kv hkv => (hadds kv hkv).2.1) hres)
      (h2_zipMode header E adds dz (fun kv hkv => (hadds kv hkv).2.2) hzip)
      hdec
      (hG.cencCorrect ce cek (rng ce.ivLen) _ _)
      (by cases dz with
        | false => rfl
        | true => simpa using hG.zipRT payload)
  · have hserF : serialize_flattened_json S rng payload prot unprot recip aad E =
        serializeFlattenedCore S rng payload prot unprot recip aad E := rfl
    have hser := serializeFlattenedCore_eq S rng payload prot unprot recip aad E
      cef dzf cekf wkf addsf merged0 merged1 hm0 hresf hzipf hencf hm1
    rw [hserF, hser]
    show deserialize_json S _ D = _
    have hdesJ : ∀ s, deserialize_json S s D =
        deserializeJsonSel S s (fun _ => .ok (some D)) := fun _ => rfl
    rw [hdesJ, deserializeJsonSel_mk S hG _ unprot recip wkf _ _ _ aad merged1 _ hm1]
    show deserializeParts S _ _ _ _ _ _ _ D = _
    obtain ⟨hmalg, hmres, hmzip⟩ := merged1_props prot unprot recip E D addsf cef dzf
      merged0 merged1 hm0 hresf hzipf haddsf halgD hm1
    exact deserializeParts_ok S _ _ wkf _ _ _ aad D cef dzf cekf
      (if dzf then S.compressFn payload else payload) payload
      hmalg hmres hmzip hdecf
      (hG.cencCorrect cef cekf (rng cef.ivLen) _ _)
      (by cases dzf with
        | false => rfl
        | true => simpa using hG.zipRT payload)

/-- Witness for C1 at the concrete Direct/`A256GCM` run, in both shapes. -/
theorem c1_roundtrip_witness :
    ((serialize_compact sampleSuite sampleRng testPayload testHeaderA256 dirEnc32).bind
      fun s => deserialize_compact sampleSuite s dirDec32) =
      .ok (testPayload, applyAdds (testHeaderA256.setClaim "alg" (.jstr dirEnc32.algName)) []) ∧
    ((serialize_flattened_json sampleSuite sampleRng testPayload (some testHeaderA256)
        none none none dirEnc32).bind fun s =>
      deserialize_json sampleSuite s dirDec32) = .ok (testPayload, ex256H2) :=
  c1_roundtrip sampleSuite sampleRng testPayload dirEnc32 dirDec32
    .a256gcm .a256gcm false false testKey32 testKey32 none none [] []
    testHeaderA256 (some testHeaderA256) none none none
    ⟨testHeaderA256.claims ++ [] ++ []⟩ ex256H2
    sampleGood rfl rfl rfl rfl (by simp) rfl (by simp) rfl rfl rfl rfl (by simp) rfl rfl


/-- Counterexample to C1 as stated: a key-management algorithm of the
AES-GCM key-wrap style publishes `iv` and `tag` header claims during
encryption, so the round-tripped header is not equal to the original header
with only the `alg` claim asserted. -/
theorem c1_counterexample :
    ((serialize_compact sampleSuite sampleRng testPayload kwHeader kwEncrypterX).bind
      fun s => deserialize_compact sampleSuite s kwDecrypterX) ≠
      .ok (testPayload, kwHeader.setClaim "alg" (.jstr "A128GCMKW")) := by
  intro h
  have h1 : serialize_compact sampleSuite sampleRng testPayload kwHeader kwEncrypterX =
      .ok kwWire := rfl
  have h2 : deserialize_compact sampleSuite kwWire kwDecrypterX =
      .ok (testPayload, kwH2) := rfl
  rw [h1] at h
  simp only [Except.bind] at h
  rw [h2] at h
  simp only [Except.ok.injEq, Prod.mk.injEq, true_and] at h
  have hiv := congrArg (fun hh => hh.getClaim "iv") h
  simp [JweHeader.getClaim, getPair, JweHeader.setClaim, setPair, kwHeader, kwH2,
    applyAdds, JweHeader.new, JweHeader.set_content_encryption] at hiv

/-- C6: caller-supplied AAD is a JSON-form feature only.  A flattened
message whose `aad` field is replaced by a different caller AAD than the one
used at encryption time fails to decrypt with the opaque decryption
failure; the AAD of compact serialization is exactly the ASCII bytes of the
base64url text of the protected header (no caller AAD enters it); and the
engine's compact path rejects any supplied caller AAD. -/
theorem c6_caller_aad (S : JweSuite) (rng : Nat → Bytes) (payload : Bytes)
    (E : JweEncrypter) (D : JweDecrypter) (header : JweHeader)
    (ce cef : ContentEncType) (dz dzf : Bool) (cek cekf : Bytes) (wk wkf : Option Bytes)
    (adds addsf : List (String × JsonValue)) (prot unprot recip : Option JweHeader)
    (a1 a2 : Bytes) (merged0 merged1 : JweHeader)
    (hG : GoodSuite S)
    (halgD : D.algName = E.algName)
    (hres : resolveEnc header = .ok ce)
    (hzip : zipMode header = .ok dz)
    (henc : E.encrypt ce.keyLen = .ok (cek, wk, adds))
    (hm0 : mergeViews (prot.getD ⟨[]⟩) unprot recip = .ok merged0)
    (hresf : resolveEnc merged0 = .ok cef)
    (hzipf : zipMode merged0 = .ok dzf)
    (hencf : E.encrypt cef.keyLen = .ok (cekf, wkf, addsf))
    (haddsf : ∀ kv ∈ addsf, kv.1 ≠ "alg" ∧ kv.1 ≠ "enc" ∧ kv.1 ≠ "zip")
    (hm1 : mergeViews (applyAdds ((prot.getD ⟨[]⟩).setClaim "alg" (.jstr E.algName)) addsf)
      unprot recip = .ok merged1)
    (h12 : a2 ≠ a1) :
    serialize_flattened_json S rng payload prot unprot recip (some a1) E =
      .ok ⟨S.msgEnc ⟨some (S.headerEnc (applyAdds ((prot.getD ⟨[]⟩).setClaim "alg"
          (.jstr E.algName)) addsf)), unprot, recip, wkf, rng cef.ivLen,
        (S.cencrypt cef cekf (rng cef.ivLen)
          (mkAad S (S.headerEnc (applyAdds ((prot.getD ⟨[]⟩).setClaim "alg"
            (.jstr E.algName)) addsf)) (some a1))
          (if dzf then S.compressFn payload else payload)).1,
        (S.cencrypt cef cekf (rng cef.ivLen)
          (mkAad S (S.headerEnc (applyAdds ((prot.getD ⟨[]⟩).setClaim "alg"
            (.jstr E.algName)) addsf)) (some a1))
          (if dzf then S.compressFn payload else payload)).2, some a1⟩⟩ ∧
    deserialize_json S
      ⟨S.msgEnc ⟨some (S.headerEnc (applyAdds ((prot.getD ⟨[]⟩).setClaim "alg"
          (.jstr E.algName)) addsf)), unprot, recip, wkf, rng cef.ivLen,
        (S.cencrypt cef cekf (rng cef.ivLen)
          (mkAad S (S.headerEnc (applyAdds ((prot.getD ⟨[]⟩).setClaim "alg"
            (.jstr E.algName)) addsf)) (some a1))
          (if dzf then S.compressFn payload else payload)).1,
        (S.cencrypt cef cekf (rng cef.ivLen)
          (mkAad S (S.headerEnc (applyAdds ((prot.getD ⟨[]⟩).setClaim "alg"
            (.jstr E.algName)) addsf)) (some a1))
          (if dzf then S.compressFn payload else payload)).2, some a2⟩⟩ D =
      .error .decryptionFailed ∧
    serialize_compact S rng payload header E =
      .ok (mkCompact S (S.headerEnc (applyAdds (header.setClaim "alg" (.jstr E.algName)) adds))
        (wk.getD []) (rng ce.ivLen)
        (S.cencrypt ce cek (rng ce.ivLen)
          (compactAad S (S.headerEnc (applyAdds (header.setClaim "alg" (.jstr E.algName)) adds)))
          (if dz then S.compressFn payload else payload)).1
        (S.cencrypt ce cek (rng ce.ivLen)
          (compactAad S (S.headerEnc (applyAdds (header.setClaim "alg" (.jstr E.algName)) adds)))
          (if dz then S.compressFn payload else payload)).2) ∧
    (∀ a', serializeCompactAadCore S rng payload header (some a') E =
      .error .malformedInput) := by
  refine ⟨?_, ?_, ?_, fun _ => rfl⟩
  · have hserF : serialize_flattened_json S rng payload prot unprot recip (some a1) E =
        serializeFlattenedCore S rng payload prot unprot recip (some a1) E := rfl
    rw [hserF]
    exact serializeFlattenedCore_eq S rng payload prot unprot recip (some a1) E
      cef dzf cekf wkf addsf merged0 merged1 hm0 hresf hzipf hencf hm1
  · have hdesJ : ∀ s, deserialize_json S s D =
        deserializeJsonSel S s (fun _ => .ok (some D)) := fun _ => rfl
    rw [hdesJ, deserializeJsonSel_mk S hG _ unprot recip wkf _ _ _ (some a2) merged1 _ hm1]
    show deserializeParts S _ _ _ _ _ _ _ D = _
    obtain ⟨hmalg, hmres, hmzip⟩ := merged1_props prot unprot recip E D addsf cef dzf
      merged0 merged1 hm0 hresf hzipf haddsf halgD hm1
    exact deserializeParts_fail_tuple S hG _ merged1 wkf _ _ (some a2) D cef cef dzf cekf
      (rng cef.ivLen) _ (if dzf then S.compressFn payload else payload)
      hmalg hmres hmzip
      (fun hall => mkAad_some_ne S hG _ a1 a2 h12 hall.2.2.1)
  · exact serializeCompactCore_eq S rng payload header E ce dz cek wk adds hres hzip henc

theorem deserializeCompactSel_mk_raw (S : JweSuite) (hG : GoodSuite S)
    (pB ekb iv ct tg : Bytes) (sel : JweHeader → Except JoseError (Option JweDecrypter)) :
    deserializeCompactSel S (mkCompact S pB ekb iv ct tg) sel =
      match S.headerDec pB with
      | none => .error .malformedInput
      | some eff =>
        match sel eff with
        | .ok (some d) =>
          deserializeParts S pB eff (if ekb.isEmpty then none else some ekb) iv ct tg none d
        | .ok none => .error .noApplicableAlgorithm
        | .error e => .error e := by
  cases hh : S.headerDec pB with
  | none =>
    simp [deserializeCompactSel, splitDots_mkCompact S hG, hG.segRT, hh, optE,
      bind, Except.bind]
  | some eff =>
    cases hsel : sel eff with
    | ok od =>
      cases od with
      | some d =>
        simp [deserializeCompactSel, splitDots_mkCompact S hG, hG.segRT, hh, hsel, optE,
          bind, Except.bind]
      | none =>
        simp [deserializeCompactSel, splitDots_mkCompact S hG, hG.segRT, hh, hsel, optE,
          bind, Except.bind]
    | error e =>
      simp [deserializeCompactSel, splitDots_mkCompact S hG, hG.segRT, hh, hsel, optE,
        bind, Except.bind]

theorem deserializeJsonSel_mk_raw (S : JweSuite) (hG : GoodSuite S) (pB : Bytes)
    (unprot recip : Option JweHeader) (wk : Option Bytes) (iv ct tg : Bytes)
    (aad : Option Bytes) (sel : JweHeader → Except JoseError (Option JweDecrypter)) :
    deserializeJsonSel S ⟨S.msgEnc ⟨some pB, unprot, recip, wk, iv, ct, tg, aad⟩⟩ sel =
      match S.headerDec pB with
      | none => .error .malformedInput
      | some ph =>
        match mergeViews ph unprot recip with
        | .error e => .error e
        | .ok eff =>
          match sel eff with
          | .ok (some d) => deserializeParts S pB eff wk iv ct tg aad d
          | .ok none => .error .noApplicableAlgorithm
          | .error e => .error e := by
  cases hh : S.headerDec pB with
  | none =>
    simp [deserializeJsonSel, hG.msgRT, hh, optE, bind, Except.bind]
  | some ph =>
    cases hm : mergeViews ph unprot recip with
    | error e =>
      simp [deserializeJsonSel, hG.msgRT, hh, hm, optE, bind, Except.bind]
    | ok eff =>
      cases hsel : sel eff with
      | ok od =>
        cases od with
        | some d =>
          simp [deserializeJsonSel, hG.msgRT, hh, hm, hsel, optE, bind, Except.bind]
        | none =>
          simp [deserializeJsonSel, hG.msgRT, hh, hm, hsel, optE, bind, Except.bind]
      | error e =>
        simp [deserializeJsonSel, hG.msgRT, hh, hm, hsel, optE, bind, Except.bind]

theorem deserializeParts_early (S : JweSuite) (pB : Bytes) (eff : JweHeader)
    (wk : Option Bytes) (iv ct tg : Bytes) (extra : Option Bytes) (D : JweDecrypter) :
    (∀ e, checkAlg eff D = .error e →
      deserializeParts S pB eff wk iv ct tg extra D = .error e) ∧
    (∀ e, checkAlg eff D = .ok () → resolveEnc eff = .error e →
      deserializeParts S pB eff wk iv ct tg extra D = .error e) ∧
    (∀ e ce, checkAlg eff D = .ok () → resolveEnc eff = .ok ce → zipMode eff = .error e →
      deserializeParts S pB eff wk iv ct tg extra D = .error e) := by
  refine ⟨?_, ?_, ?_⟩
  · intro e he
    simp [deserializeParts, he, bind, Except.bind]
  · intro e h1 h2
    simp [deserializeParts, h1, h2, bind, Except.bind]
  · intro e ce h1 h2 h3
    simp [deserializeParts, h1, h2, h3, bind, Except.bind]

theorem headerFlip_compact_error (S : JweSuite) (hG : GoodSuite S) (pB' pB ekb iv : Bytes)
    (D : JweDecrypter) (ce0 : ContentEncType) (cek0 pt0 : Bytes) (hne : pB' ≠ pB) :
    ∃ e, deserializeCompactSel S (mkCompact S pB' ekb iv
      (S.cencrypt ce0 cek0 iv (compactAad S pB) pt0).1
      (S.cencrypt ce0 cek0 iv (compactAad S pB) pt0).2) (fun _ => .ok (some D)) =
      .error e := by
  rw [deserializeCompactSel_mk_raw S hG pB' ekb iv _ _ _]
  cases hh : S.headerDec pB' with
  | none => exact ⟨.malformedInput, rfl⟩
  | some eff =>
    obtain ⟨hp1, hp2, hp3⟩ := deserializeParts_early S pB' eff
      (if ekb.isEmpty then none else some ekb) iv
      (S.cencrypt ce0 cek0 iv (compactAad S pB) pt0).1
      (S.cencrypt ce0 cek0 iv (compactAad S pB) pt0).2 none D
    cases hca : checkAlg eff D with
    | error e => exact ⟨e, hp1 e hca⟩
    | ok u =>
      obtain ⟨⟩ := u
      cases hre : resolveEnc eff with
      | error e => exact ⟨e, hp2 e hca hre⟩
      | ok ce' =>
        cases hz : zipMode eff with
        | error e => exact ⟨e, hp3 e ce' hca hre hz⟩
        | ok dz' =>
          exact ⟨.decryptionFailed,
            deserializeParts_fail_tuple S hG pB' eff
              (if ekb.isEmpty then none else some ekb) iv
              (S.cencrypt ce0 cek0 iv (compactAad S pB) pt0).1 none D ce' ce0 dz'
              cek0 iv (compactAad S pB) pt0 hca hre hz
              (fun hall => hne (compactAad_inj S hG pB' pB hall.2.2.1))⟩

theorem deserializeJson_case_none (S : JweSuite) (hG : GoodSuite S) (pB : Bytes)
    (unprot recip : Option JweHeader) (wk : Option Bytes) (iv ct tg : Bytes)
    (aad : Option Bytes) (sel : JweHeader → Except JoseError (Option JweDecrypter))
    (hh : S.headerDec pB = none) :
    deserializeJsonSel S ⟨S.msgEnc ⟨some pB, unprot, recip, wk, iv, ct, tg, aad⟩⟩ sel =
      .error .malformedInput := by
  simp [deserializeJsonSel, hG.msgRT, hh, optE, bind, Except.bind]

theorem deserializeJson_case_mergeErr (S : JweSuite) (hG : GoodSuite S) (pB : Bytes)
    (unprot recip : Option JweHeader) (wk : Option Bytes) (iv ct tg : Bytes)
    (aad : Option Bytes) (sel : JweHeader → Except JoseError (Option JweDecrypter))
    (ph : JweHeader) (e : JoseError)
    (hh : S.headerDec pB = some ph) (hm : mergeViews ph unprot recip = .error e) :
    deserializeJsonSel S ⟨S.msgEnc ⟨some pB, unprot, recip, wk, iv, ct, tg, aad⟩⟩ sel =
      .error e := by
  simp [deserializeJsonSel, hG.msgRT, hh, hm, optE, bind, Except.bind]

theorem deserializeJson_case_ok (S : JweSuite) (hG : GoodSuite S) (pB : Bytes)
    (unprot recip : Option JweHeader) (wk : Option Bytes) (iv ct tg : Bytes)
    (aad : Option Bytes) (sel : JweHeader → Except JoseError (Option JweDecrypter))
    (ph eff : JweHeader) (d : JweDecrypter)
    (hh : S.headerDec pB = some ph) (hm : mergeViews ph unprot recip = .ok eff)
    (hsel : sel eff = .ok (some d)) :
    deserializeJsonSel S ⟨S.msgEnc ⟨some pB, unprot, recip, wk, iv, ct, tg, aad⟩⟩ sel =
      deserializeParts S pB eff wk iv ct tg aad d := by
  simp [deserializeJsonSel, hG.msgRT, hh, hm, hsel, optE, bind, Except.bind]

theorem headerFlip_json_error (S : JweSuite) (hG : GoodSuite S) (pB' pB : Bytes)
    (unprot recip : Option JweHeader) (wk : Option Bytes) (iv : Bytes)
    (aad : Option Bytes) (D : JweDecrypter) (ce0 : ContentEncType) (cek0 pt0 : Bytes)
    (hne : pB' ≠ pB) :
    ∃ e, deserializeJsonSel S ⟨S.msgEnc ⟨some pB', unprot, recip, wk, iv,
      (S.cencrypt ce0 cek0 iv (mkAad S pB aad) pt0).1,
      (S.cencrypt ce0 cek0 iv (mkAad S pB aad) pt0).2, aad⟩⟩ (fun _ => .ok (some D)) =
      .error e := by
  cases hh : S.headerDec pB' with
  | none =>
    exact ⟨.malformedInput,
      deserializeJson_case_none S hG pB' unprot recip wk iv _ _ aad _ hh⟩
  | some ph =>
    cases hm : mergeViews ph unprot recip with
    | error e =>
      exact ⟨e, deserializeJson_case_mergeErr S hG pB' unprot recip wk iv _ _ aad _ ph e
        hh hm⟩
    | ok eff =>
      have hjs := deserializeJson_case_ok S hG pB' unprot recip wk iv
        (S.cencrypt ce0 cek0 iv (mkAad S pB aad) pt0).1
        (S.cencrypt ce0 cek0 iv (mkAad S pB aad) pt0).2 aad
        (fun _ => .ok (some D)) ph eff D hh hm rfl
      obtain ⟨hp1, hp2, hp3⟩ := deserializeParts_early S pB' eff wk iv
        (S.cencrypt ce0 cek0 iv (mkAad S pB aad) pt0).1
        (S.cencrypt ce0 cek0 iv (mkAad S pB aad) pt0).2 aad D
      cases hca : checkAlg eff D with
      | error e => exact ⟨e, by rw [hjs]; exact hp1 e hca⟩
      | ok u =>
        obtain ⟨⟩ := u
        cases hre : resolveEnc eff with
        | error e => exact ⟨e, by rw [hjs]; exact hp2 e hca hre⟩
        | ok ce' =>
          cases hz : zipMode eff with
          | error e => exact ⟨e, by rw [hjs]; exact hp3 e ce' hca hre hz⟩
          | ok dz' =>
            refine ⟨.decryptionFailed, ?_⟩
            rw [hjs]
            exact deserializeParts_fail_tuple S hG pB' eff wk iv
              (S.cencrypt ce0 cek0 iv (mkAad S pB aad) pt0).1 aad D ce' ce0 dz'
              cek0 iv (mkAad S pB aad) pt0 hca hre hz
              (fun hall => mkAad_ne_of_pB_ne S hG pB' pB aad hne hall.2.2.1)

/-- C3 (amended): for a successfully serialized message, flipping any single
bit of the ciphertext, the tag, or the IV makes the corresponding
deserialize operation fail with the opaque decryption-failure error, in both
the compact and the flattened JSON shape; flipping a single bit of the
protected-header bytes also makes deserialization fail — never succeed —
but the error may be of another kind (for example malformed input when the
tampered header no longer decodes). -/
theorem c3_tamper_sensitivity (S : JweSuite) (rng : Nat → Bytes) (payload : Bytes)
    (E : JweEncrypter) (D : JweDecrypter)
    (ce cef : ContentEncType) (dz dzf : Bool)
    (cek cekf : Bytes) (wk wkf : Option Bytes) (adds addsf : List (String × JsonValue))
    (header : JweHeader) (prot unprot recip : Option JweHeader) (aad : Option Bytes)
    (merged0 merged1 : JweHeader)
    (hG : GoodSuite S)
    (halgD : D.algName = E.algName)
    (hres : resolveEnc header = .ok ce)
    (hzip : zipMode header = .ok dz)
    (henc : E.encrypt ce.keyLen = .ok (cek, wk, adds))
    (hadds : ∀ kv ∈ adds, kv.1 ≠ "alg" ∧ kv.1 ≠ "enc" ∧ kv.1 ≠ "zip")
    (hdec : D.decrypt wk ce.keyLen = .ok cek)
    (hwk : wk ≠ some [])
    (hm0 : mergeViews (prot.getD ⟨[]⟩) unprot recip = .ok merged0)
    (hresf : resolveEnc merged0 = .ok cef)
    (hzipf : zipMode merged0 = .ok dzf)
    (hencf : E.encrypt cef.keyLen = .ok (cekf, wkf, addsf))
    (haddsf : ∀ kv ∈ addsf, kv.1 ≠ "alg" ∧ kv.1 ≠ "enc" ∧ kv.1 ≠ "zip")
    (hdecf : D.decrypt wkf cef.keyLen = .ok cekf)
    (hm1 : mergeViews (applyAdds ((prot.getD ⟨[]⟩).setClaim "alg" (.jstr E.algName)) addsf)
      unprot recip = .ok merged1) :
    (∀ i k, i < (S.cencrypt ce cek (rng ce.ivLen)
        (compactAad S (S.headerEnc (applyAdds (header.setClaim "alg" (.jstr E.algName)) adds)))
        (if dz then S.compressFn payload else payload)).1.length →
      deserialize_compact S (mkCompact S
        (S.headerEnc (applyAdds (header.setClaim "alg" (.jstr E.algName)) adds))
        (wk.getD []) (rng ce.ivLen)
        (flipBit (S.cencrypt ce cek (rng ce.ivLen)
          (compactAad S (S.headerEnc (applyAdds (header.setClaim "alg" (.jstr E.algName)) adds)))
          (if dz then S.compressFn payload else payload)).1 i k)
        (S.cencrypt ce cek (rng ce.ivLen)
          (compactAad S (S.headerEnc (applyAdds (header.setClaim "alg" (.jstr E.algName)) adds)))
          (if dz then S.compressFn payload else payload)).2) D =
        .error .decryptionFailed) ∧
    (∀ i k, i < (S.cencrypt ce cek (rng ce.ivLen)
        (compactAad S (S.headerEnc (applyAdds (header.setClaim "alg" (.jstr E.algName)) adds)))
        (if dz then S.compressFn payload else payload)).2.length →
      deserialize_compact S (mkCompact S
        (S.headerEnc (applyAdds (header.setClaim "alg" (.jstr E.algName)) adds))
        (wk.getD []) (rng ce.ivLen)
        (S.cencrypt ce cek (rng ce.ivLen)
          (compactAad S (S.headerEnc (applyAdds (header.setClaim "alg" (.jstr E.algName)) adds)))
          (if dz then S.compressFn payload else payload)).1
        (flipBit (S.cencrypt ce cek (rng ce.ivLen)
          (compactAad S (S.headerEnc (applyAdds (header.setClaim "alg" (.jstr E.algName)) adds)))
          (if dz then S.compressFn payload else payload)).2 i k)) D =
        .error .decryptionFailed) ∧
    (∀ i k, i < (rng ce.ivLen).length →
      deserialize_compact S (mkCompact S
        (S.headerEnc (applyAdds (header.setClaim "alg" (.jstr E.algName)) adds))
        (wk.getD []) (flipBit (rng ce.ivLen) i k)
        (S.cencrypt ce cek (rng ce.ivLen)
          (compactAad S (S.headerEnc (applyAdds (header.setClaim "alg" (.jstr E.algName)) adds)))
          (if dz then S.compressFn payload else payload)).1
        (S.cencrypt ce cek (rng ce.ivLen)
          (compactAad S (S.headerEnc (applyAdds (header.setClaim "alg" (.jstr E.algName)) adds)))
          (if dz then S.compressFn payload else payload)).2) D =
        .error .decryptionFailed) ∧
    (∀ i k, i < (S.headerEnc (applyAdds (header.setClaim "alg" (.jstr E.algName)) adds)).length →
      ∃ e, deserialize_compact S (mkCompact S
        (flipBit (S.headerEnc (applyAdds (header.setClaim "alg" (.jstr E.algName)) adds)) i k)
        (wk.getD []) (rng ce.ivLen)
        (S.cencrypt ce cek (rng ce.ivLen)
          (compactAad S (S.headerEnc (applyAdds (header.setClaim "alg" (.jstr E.algName)) adds)))
          (if dz then S.compressFn payload else payload)).1
        (S.cencrypt ce cek (rng ce.ivLen)
          (compactAad S (S.headerEnc (applyAdds (header.setClaim "alg" (.jstr E.algName)) adds)))
          (if dz then S.compressFn payload else payload)).2) D = .error e) ∧
    (∀ i k, i < (S.cencrypt cef cekf (rng cef.ivLen)
        (mkAad S (S.headerEnc (applyAdds ((prot.getD ⟨[]⟩).setClaim "alg" (.jstr E.algName))
          addsf)) aad) (if dzf then S.compressFn payload else payload)).1.length →
      deserialize_json S ⟨S.msgEnc ⟨some (S.headerEnc (applyAdds
          ((prot.getD ⟨[]⟩).setClaim "alg" (.jstr E.algName)) addsf)), unprot, recip, wkf,
        rng cef.ivLen,
        flipBit (S.cencrypt cef cekf (rng cef.ivLen)
          (mkAad S (S.headerEnc (applyAdds ((prot.getD ⟨[]⟩).setClaim "alg" (.jstr E.algName))
            addsf)) aad) (if dzf then S.compressFn payload else payload)).1 i k,
        (S.cencrypt cef cekf (rng cef.ivLen)
          (mkAad S (S.headerEnc (applyAdds ((prot.getD ⟨[]⟩).setClaim "alg" (.jstr E.algName))
            addsf)) aad) (if dzf then S.compressFn payload else payload)).2, aad⟩⟩ D =
        .error .decryptionFailed) ∧
    (∀ i k, i < (S.cencrypt cef cekf (rng cef.ivLen)
        (mkAad S (S.headerEnc (applyAdds ((prot.getD ⟨[]⟩).setClaim "alg" (.jstr E.algName))
          addsf)) aad) (if dzf then S.compressFn payload else payload)).2.length →
      deserialize_json S ⟨S.msgEnc ⟨some (S.headerEnc (applyAdds
          ((prot.getD ⟨[]⟩).setClaim "alg" (.jstr E.algName)) addsf)), unprot, recip, wkf,
        rng cef.ivLen,
        (S.cencrypt cef cekf (rng cef.ivLen)
          (mkAad S (S.headerEnc (applyAdds ((prot.getD ⟨[]⟩).setClaim "alg" (.jstr E.algName))
            addsf)) aad) (if dzf then S.compressFn payload else payload)).1,
        flipBit (S.cencrypt cef cekf (rng cef.ivLen)
          (mkAad S (S.headerEnc (applyAdds ((prot.getD ⟨[]⟩).setClaim "alg" (.jstr E.algName))
            addsf)) aad) (if dzf then S.compressFn payload else payload)).2 i k, aad⟩⟩ D =
        .error .decryptionFailed) ∧
    (∀ i k, i < (rng cef.ivLen).length →
      deserialize_json S ⟨S.msgEnc ⟨some (S.headerEnc (applyAdds
          ((prot.getD ⟨[]⟩).setClaim "alg" (.jstr E.algName)) addsf)), unprot, recip, wkf,
        flipBit (rng cef.ivLen) i k,
        (S.cencrypt cef cekf (rng cef.ivLen)
          (mkAad S (S.headerEnc (applyAdds ((prot.getD ⟨[]⟩).setClaim "alg" (.jstr E.algName))
            addsf)) aad) (if dzf then S.compressFn payload else payload)).1,
        (S.cencrypt cef cekf (rng cef.ivLen)
          (mkAad S (S.headerEnc (applyAdds ((prot.getD ⟨[]⟩).setClaim "alg" (.jstr E.algName))
            addsf)) aad) (if dzf then S.compressFn payload else payload)).2, aad⟩⟩ D =
        .error .decryptionFailed) ∧
    (∀ i k, i < (S.headerEnc (applyAdds ((prot.getD ⟨[]⟩).setClaim "alg" (.jstr E.algName))
        addsf)).length →
      ∃ e, deserialize_json S ⟨S.msgEnc ⟨some (flipBit (S.headerEnc (applyAdds
          ((prot.getD ⟨[]⟩).setClaim "alg" (.jstr E.algName)) addsf)) i k), unprot, recip,
        wkf, rng cef.ivLen,
        (S.cencrypt cef cekf (rng cef.ivLen)
          (mkAad S (S.headerEnc (applyAdds ((prot.getD ⟨[]⟩).setClaim "alg" (.jstr E.algName))
            addsf)) aad) (if dzf then S.compressFn payload else payload)).1,
        (S.cencrypt cef cekf (rng cef.ivLen)
          (mkAad S (S.headerEnc (applyAdds ((prot.getD ⟨[]⟩).setClaim "alg" (.jstr E.algName))
            addsf)) aad) (if dzf then S.compressFn payload else payload)).2, aad⟩⟩ D =
        .error e) := by
  have hcheck := h2_checkAlg header E D adds (fun kv hkv => (hadds kv hkv).1) halgD
  have hres2 := h2_resolveEnc header E adds ce (fun kv hkv => (hadds kv hkv).2.1) hres
  have hzip2 := h2_zipMode header E adds dz (fun kv hkv => (hadds kv hkv).2.2) hzip
  obtain ⟨hmalg, hmres, hmzip⟩ := merged1_props prot unprot recip E D addsf cef dzf
    merged0 merged1 hm0 hresf hzipf haddsf halgD hm1
  have hdesC : ∀ s, deserialize_compact S s D =
      deserializeCompactSel S s (fun _ => .ok (some D)) := fun _ => rfl
  have hdesJ : ∀ s, deserialize_json S s D =
      deserializeJsonSel S s (fun _ => .ok (some D)) := fun _ => rfl
  refine ⟨?_, ?_, ?_, ?_, ?_, ?_, ?_, ?_⟩
  · intro i k hik
    rw [hdesC, deserializeCompactSel_mkCompact S hG _ (wk.getD []) _ _ _]
    show deserializeParts S _ _ _ _ _ _ _ D = _
    rw [wkRec wk hwk]
    exact deserializeParts_fail_tuple S hG _ _ wk _ _ none D ce ce dz cek _ _ _
      hcheck hres2 hzip2 (fun hall => flipBit_ne _ i k hik hall.2.2.2)
  · intro i k hik
    rw [hdesC, deserializeCompactSel_mkCompact S hG _ (wk.getD []) _ _ _]
    show deserializeParts S _ _ _ _ _ _ _ D = _
    rw [wkRec wk hwk]
    exact deserializeParts_fail_tag S hG _ _ wk _ _ none D ce dz cek
      (if dz then S.compressFn payload else payload)
      hcheck hres2 hzip2 hdec (flipBit_ne _ i k hik)
  · intro i k hik
    rw [hdesC, deserializeCompactSel_mkCompact S hG _ (wk.getD []) _ _ _]
    show deserializeParts S _ _ _ _ _ _ _ D = _
    rw [wkRec wk hwk]
    exact deserializeParts_fail_tuple S hG _ _ wk _ _ none D ce ce dz cek _ _ _
      hcheck hres2 hzip2 (fun hall => flipBit_ne _ i k hik hall.2.1)
  · intro i k hik
    rw [hdesC]
    exact headerFlip_compact_error S hG _ _ (wk.getD []) _ D ce cek _
      (flipBit_ne _ i k hik)
  · intro i k hik
    rw [hdesJ, deserializeJson_case_ok S hG _ unprot recip wkf _ _ _ aad _ _ merged1 D
      (hG.headerRT _) hm1 rfl]
    exact deserializeParts_fail_tuple S hG _ _ wkf _ _ aad D cef cef dzf cekf _ _ _
      hmalg hmres hmzip (fun hall => flipBit_ne _ i k hik hall.2.2.2)
  · intro i k hik
    rw [hdesJ, deserializeJson_case_ok S hG _ unprot recip wkf _ _ _ aad _ _ merged1 D
      (hG.headerRT _) hm1 rfl]
    exact deserializeParts_fail_tag S hG _ _ wkf _ _ aad D cef dzf cekf
      (if dzf then S.compressFn payload else payload)
      hmalg hmres hmzip hdecf (flipBit_ne _ i k hik)
  · intro i k hik
    rw [hdesJ, deserializeJson_case_ok S hG _ unprot recip wkf _ _ _ aad _ _ merged1 D
      (hG.headerRT _) hm1 rfl]
    exact deserializeParts_fail_tuple S hG _ _ wkf _ _ aad D cef cef dzf cekf _ _ _
      hmalg hmres hmzip (fun hall => flipBit_ne _ i k hik hall.2.1)
  · intro i k hik
    rw [hdesJ]
    exact headerFlip_json_error S hG _ _ unprot recip wkf _ aad D cef cekf _
      (flipBit_ne _ i k hik)

/-- Witness for C3: flipping bit 0 of byte 0 of the concrete run's
ciphertext makes compact deserialization fail with the decryption-failure
error. -/
theorem c3_tamper_sensitivity_witness :
    deserialize_compact sampleSuite
      (mkCompact sampleSuite ex256PB [] ex256Iv (flipBit ex256Ctg.1 0 0) ex256Ctg.2)
      dirDec32 = .error .decryptionFailed :=
  (c3_tamper_sensitivity sampleSuite sampleRng testPayload dirEnc32 dirDec32
    .a256gcm .a256gcm false false testKey32 testKey32 none none [] []
    testHeaderA256 (some testHeaderA256) none none none
    ⟨testHeaderA256.claims ++ [] ++ []⟩ ex256H2
    sampleGood rfl rfl rfl rfl (by simp) rfl (by simp) rfl rfl rfl rfl (by simp) rfl
    rfl).1 0 0 (by decide)

/-- Counterexample to C3 as stated: flipping one bit of the protected-header
bytes of a successfully serialized compact message makes deserialization
fail with the malformed-input kind, not the decryption-failure kind the
claim demands. -/
theorem c3_counterexample :
    serialize_compact sampleSuite sampleRng testPayload testHeaderA256 dirEnc32 =
      .ok ex256Wire ∧
    ex256WireHdrFlip =
      mkCompact sampleSuite (flipBit ex256PB 0 0) [] ex256Iv ex256Ctg.1 ex256Ctg.2 ∧
    deserialize_compact sampleSuite ex256WireHdrFlip dirDec32 = .error .malformedInput ∧
    JoseError.malformedInput ≠ JoseError.decryptionFailed :=
  ⟨rfl, rfl, rfl, by decide⟩

/-- Witness for C6: substituting caller AAD `[2]` for the `[1]` used at
encryption time makes flattened-JSON decryption fail with the
decryption-failure error at the concrete sample run. -/
theorem c6_caller_aad_witness :
    deserialize_json sampleSuite
      ⟨sampleMsgEnc ⟨some ex256PB, none, none, none, ex256Iv,
        (sampleSuite.cencrypt .a256gcm testKey32 ex256Iv
          (mkAad sampleSuite ex256PB (some [1])) testPayload).1,
        (sampleSuite.cencrypt .a256gcm testKey32 ex256Iv
          (mkAad sampleSuite ex256PB (some [1])) testPayload).2, some [2]⟩⟩ dirDec32 =
      .error .decryptionFailed :=
  (c6_caller_aad sampleSuite sampleRng testPayload dirEnc32 dirDec32 testHeaderA256
    .a256gcm .a256gcm false false testKey32 testKey32 none none [] []
    (some testHeaderA256) none none [1] [2] ⟨testHeaderA256.claims ++ [] ++ []⟩ ex256H2
    sampleGood rfl rfl rfl rfl rfl rfl rfl rfl (by simp) rfl (by decide)).2.1
